import Mathlib

/-!
Verification development for the Compass Token Sync Figma plugin
(`figma-plugin/code.ts`): token extraction, alias resolution, validation,
change detection against the published repository snapshot, and the sync
orchestration around them.

JSON-like token trees are modelled by the inductive type `Json`.  A JS
object is an association list of string keys preserving insertion order
(`Json.obj`); numbers are rationals.  Property access `x.k` is `Json.get`,
which yields `none` for a missing key or a non-object receiver, mirroring
JS `undefined` (index properties of JS strings are not modelled).  JS
truthiness tests (`x && x.y ? _ : _`, `x || {}`) are modelled by
`Json.truthy`.  JS strict inequality `!==` between possibly-undefined
property values is `jsStrictNeq`: primitives compare by value, while two
distinct object/array values always compare unequal (the plugin never
compares aliased references, so reference equality never holds between a
freshly extracted tree and a fetched one).
-/

inductive Json where
  | str : String → Json
  | num : ℚ → Json
  | bool : Bool → Json
  | null : Json
  | arr : List Json → Json
  | obj : List (String × Json) → Json

mutual

def Json.beq : Json → Json → Bool
  | .str a, .str b => a == b
  | .num a, .num b => a == b
  | .bool a, .bool b => a == b
  | .null, .null => true
  | .arr a, .arr b => Json.beqList a b
  | .obj a, .obj b => Json.beqObj a b
  | _, _ => false

def Json.beqList : List Json → List Json → Bool
  | [], [] => true
  | x :: xs, y :: ys => Json.beq x y && Json.beqList xs ys
  | _, _ => false

def Json.beqObj : List (String × Json) → List (String × Json) → Bool
  | [], [] => true
  | (k, v) :: xs, (l, w) :: ys => k == l && Json.beq v w && Json.beqObj xs ys
  | _, _ => false

end

mutual

theorem Json.beq_iff : ∀ a b : Json, Json.beq a b = true ↔ a = b
  | .str a, .str b => by simp [Json.beq]
  | .num a, .num b => by simp [Json.beq]
  | .bool a, .bool b => by simp [Json.beq]
  | .null, .null => by simp [Json.beq]
  | .arr a, .arr b => by simp [Json.beq, Json.beqList_iff a b]
  | .obj a, .obj b => by simp [Json.beq, Json.beqObj_iff a b]
  | .str a, .num b => by simp [Json.beq]
  | .str a, .bool b => by simp [Json.beq]
  | .str a, .null => by simp [Json.beq]
  | .str a, .arr b => by simp [Json.beq]
  | .str a, .obj b => by simp [Json.beq]
  | .num a, .str b => by simp [Json.beq]
  | .num a, .bool b => by simp [Json.beq]
  | .num a, .null => by simp [Json.beq]
  | .num a, .arr b => by simp [Json.beq]
  | .num a, .obj b => by simp [Json.beq]
  | .bool a, .str b => by simp [Json.beq]
  | .bool a, .num b => by simp [Json.beq]
  | .bool a, .null => by simp [Json.beq]
  | .bool a, .arr b => by simp [Json.beq]
  | .bool a, .obj b => by simp [Json.beq]
  | .null, .str b => by simp [Json.beq]
  | .null, .num b => by simp [Json.beq]
  | .null, .bool b => by simp [Json.beq]
  | .null, .arr b => by simp [Json.beq]
  | .null, .obj b => by simp [Json.beq]
  | .arr a, .str b => by simp [Json.beq]
  | .arr a, .num b => by simp [Json.beq]
  | .arr a, .bool b => by simp [Json.beq]
  | .arr a, .null => by simp [Json.beq]
  | .arr a, .obj b => by simp [Json.beq]
  | .obj a, .str b => by simp [Json.beq]
  | .obj a, .num b => by simp [Json.beq]
  | .obj a, .bool b => by simp [Json.beq]
  | .obj a, .null => by simp [Json.beq]
  | .obj a, .arr b => by simp [Json.beq]

theorem Json.beqList_iff : ∀ a b : List Json, Json.beqList a b = true ↔ a = b
  | [], [] => by simp [Json.beqList]
  | x :: xs, y :: ys => by
      simp [Json.beqList, Json.beq_iff x y, Json.beqList_iff xs ys]
  | [], _ :: _ => by simp [Json.beqList]
  | _ :: _, [] => by simp [Json.beqList]

theorem Json.beqObj_iff : ∀ a b : List (String × Json), Json.beqObj a b = true ↔ a = b
  | [], [] => by simp [Json.beqObj]
  | (k, v) :: xs, (l, w) :: ys => by
      simp [Json.beqObj, Json.beq_iff v w, Json.beqObj_iff xs ys, Prod.ext_iff, and_assoc]
  | [], _ :: _ => by simp [Json.beqObj]
  | _ :: _, [] => by simp [Json.beqObj]

end

instance : DecidableEq Json := fun a b => decidable_of_iff _ (Json.beq_iff a b)

/-- JS property access `j[k]`: `none` is `undefined`. -/
def Json.get : Json → String → Option Json
  | .obj kvs, k => (kvs.find? (fun p => p.1 == k)).map Prod.snd
  | _, _ => none

/-- JS `Object.keys` (insertion order) for objects; `[]` otherwise. -/
def Json.keys : Json → List String
  | .obj kvs => kvs.map Prod.fst
  | _ => []

/-- JS truthiness of a defined value. -/
def Json.truthy : Json → Bool
  | .null => false
  | .bool b => b
  | .num q => !(q == 0)
  | .str s => !(s == "")
  | _ => true

/-- Truthy property access: `j[k]` when the result is a defined, truthy value. -/
def Json.getT (j : Json) (k : String) : Option Json :=
  (j.get k).filter Json.truthy

/-- Whether the value is a JS primitive (compared by value under `===`). -/
def Json.isPrim : Json → Bool
  | .str _ => true
  | .num _ => true
  | .bool _ => true
  | .null => true
  | _ => false

/-- JS `a !== b` on two possibly-undefined property values.  Primitives
compare structurally; object/array operands are distinct references in
every comparison the plugin performs, hence always unequal. -/
def jsStrictNeq (a b : Option Json) : Bool :=
  match a, b with
  | none, none => false
  | some x, some y => if x.isPrim && y.isPrim then decide (x ≠ y) else true
  | _, _ => true

/-- Iteration order of `new Set([...a, ...b])` up to duplicates. -/
def unionKeys (a b : List String) : List String :=
  (a ++ b).dedup

/-- The `vars[k] ? vars[k].$value : undefined` pattern used by every
leaf-level comparison in the change detector. -/
def dollarValue (vars : Json) (k : String) : Option Json :=
  (vars.getT k).bind (fun t => t.get "$value")

/-- Helper for the `a.k1 && a.k1.k2 ? a.k1.k2 : {}` guard chains. -/
def jsGuard2 (j : Json) (k1 k2 : String) : Json :=
  (((j.getT k1).bind (fun x => x.getT k2)).getD (Json.obj []))

/-- Helper for the `a.k1 && a.k1.k2 && a.k1.k2.k3 ? ... : {}` guard chains. -/
def jsGuard3 (j : Json) (k1 k2 k3 : String) : Json :=
  ((((j.getT k1).bind (fun x => x.getT k2)).bind (fun x => x.getT k3)).getD (Json.obj []))

/-- The `j[k] || {}` pattern. -/
def Json.getOr (j : Json) (k : String) : Json :=
  (j.getT k).getD (Json.obj [])

/-- Unguarded JS member access `j.k1.k2` (missing members read as `undefined`,
modelled by `null`; the plugin only applies this to well-shaped trees). -/
def raw2 (j : Json) (k1 k2 : String) : Json :=
  (((j.get k1).getD .null).get k2).getD .null

/-- The `j.k1 ? j.k1.k2 : {}` pattern used in the inline spacing comparison. -/
def jsTernGet (j : Json) (k1 k2 : String) : Json :=
  match j.getT k1 with
  | some s => (s.get k2).getD .null
  | none => Json.obj []

/-- JS `String.prototype.toLowerCase` (ASCII suffices here). -/
def jsToLower (s : String) : String :=
  String.mk (s.data.map Char.toLower)

namespace TOKEN_FILES

def FOUNDATION_COLOR : String := "tokens/src/foundation/color.json"

def SEMANTIC_ATTACHMENT : String := "tokens/src/semantic/attachment.json"

def FOUNDATION_RADIUS : String := "tokens/src/foundation/radius.json"

def FOUNDATION_SPACING : String := "tokens/src/foundation/spacing.json"

def TYPOGRAPHY_FOUNDATION : String := "tokens/src/foundation/typography.json"

def TYPOGRAPHY_SEMANTIC : String := "tokens/src/semantic/typography.json"

def THEME_DENIM : String := "tokens/src/themes/denim.json"

def THEME_SAPPHIRE : String := "tokens/src/themes/sapphire.json"

def THEME_QUARTZ : String := "tokens/src/themes/quartz.json"

def THEME_ONYX : String := "tokens/src/themes/onyx.json"

def THEME_INDIGO : String := "tokens/src/themes/indigo.json"

end TOKEN_FILES

/-- Key order of the `THEME_MODE_TO_FILE` object literal. -/
def THEME_NAMES : List String := ["Denim", "Sapphire", "Quartz", "Onyx", "Indigo"]

/-- Lookup in the `THEME_MODE_TO_FILE` object (undefined for other modes). -/
def THEME_MODE_TO_FILE : String → Option String
  | "Denim" => some TOKEN_FILES.THEME_DENIM
  | "Sapphire" => some TOKEN_FILES.THEME_SAPPHIRE
  | "Quartz" => some TOKEN_FILES.THEME_QUARTZ
  | "Onyx" => some TOKEN_FILES.THEME_ONYX
  | "Indigo" => some TOKEN_FILES.THEME_INDIGO
  | _ => none

/-- Total version of `THEME_MODE_TO_FILE` for the five known theme names. -/
def themeFile (mode : String) : String := (THEME_MODE_TO_FILE mode).getD ""

/-- A `tokensMap`: file path → token tree, as an association list. -/
abbrev JsonMap := List (String × Json)

def mapGet (m : JsonMap) (k : String) : Option Json :=
  (m.find? (fun p => p.1 == k)).map Prod.snd

/-- Truthy map access: the `if (tokensMap[path])` pattern. -/
def mapGetT (m : JsonMap) (k : String) : Option Json :=
  (mapGet m k).filter Json.truthy

/-- `hasFoundationColorChanges` (code.ts): union the color families of both
trees, union the shades of each family, and report a change on the first
`$value` strict inequality. -/
def hasFoundationColorChanges (newTokens currentTokens : Json) : Bool :=
  let newColors := jsGuard2 newTokens "color" "foundation"
  let currentColors := jsGuard2 currentTokens "color" "foundation"
  (unionKeys newColors.keys currentColors.keys).any (fun family =>
    let newShades := newColors.getOr family
    let currentShades := currentColors.getOr family
    (unionKeys newShades.keys currentShades.keys).any (fun shade =>
      jsStrictNeq (dollarValue newShades shade) (dollarValue currentShades shade)))

/-- `hasSemanticAttachmentChanges` (code.ts). -/
def hasSemanticAttachmentChanges (newTokens currentTokens : Json) : Bool :=
  let newAttachment := jsGuard3 newTokens "color" "semantic" "attachment"
  let currentAttachment := jsGuard3 currentTokens "color" "semantic" "attachment"
  (unionKeys newAttachment.keys currentAttachment.keys).any (fun color =>
    jsStrictNeq (dollarValue newAttachment color) (dollarValue currentAttachment color))

/-- `hasFoundationRadiusChanges` (code.ts). -/
def hasFoundationRadiusChanges (newTokens currentTokens : Json) : Bool :=
  let newRadius := jsGuard2 newTokens "radius" "foundation"
  let currentRadius := jsGuard2 currentTokens "radius" "foundation"
  (unionKeys newRadius.keys currentRadius.keys).any (fun size =>
    jsStrictNeq (dollarValue newRadius size) (dollarValue currentRadius size))

/-- `hasSemanticTypographyChanges` (code.ts): only the `heading` and `body`
categories are compared; whole composite tokens are compared structurally
(via `JSON.stringify`). -/
def hasSemanticTypographyChanges (newTokens currentTokens : Json) : Bool :=
  let newSemantic := jsGuard2 newTokens "typography" "semantic"
  let currentSemantic := jsGuard2 currentTokens "typography" "semantic"
  ["heading", "body"].any (fun category =>
    let newCat := newSemantic.getOr category
    let currentCat := currentSemantic.getOr category
    (unionKeys newCat.keys currentCat.keys).any (fun name =>
      decide (newCat.get name ≠ currentCat.get name)))

/-- The per-leaf comparison of `hasTypographyChanges`: two array values
(font families) compare structurally via `JSON.stringify`; anything else
compares by strict inequality. -/
def typoLeafDiff (newValue currentValue : Option Json) : Bool :=
  match newValue, currentValue with
  | some (.arr xs), some (.arr ys) => decide (xs ≠ ys)
  | _, _ => jsStrictNeq newValue currentValue

/-- `hasTypographyChanges` (code.ts): five fixed foundation typography
properties; font-family arrays are compared structurally, other values
by strict inequality. -/
def hasTypographyChanges (newTokens currentTokens : Json) : Bool :=
  let newTypo := jsGuard2 newTokens "typography" "foundation"
  let currentTypo := jsGuard2 currentTokens "typography" "foundation"
  ["fontFamily", "fontSize", "fontWeight", "lineHeight", "letterSpacing"].any (fun property =>
    let newProps := newTypo.getOr property
    let currentProps := currentTypo.getOr property
    (unionKeys newProps.keys currentProps.keys).any (fun key =>
      typoLeafDiff (dollarValue newProps key) (dollarValue currentProps key)))

structure ChangeDetection where
  hasChanges : Bool
  changedFiles : List String
deriving DecidableEq, Repr

/-- `changedFiles.push(p)` guarded by a branch condition. -/
def changedFileIf (b : Bool) (p : String) : List String :=
  if b then [p] else []

/-- Condition of the per-theme block of `detectChanges` (code.ts lines
2032-2065): the file is present (truthy) in the new map and some variable
in the union of both key sets has a differing `$value`.  There is no
non-emptiness guard on the new theme tree. -/
def detectThemeBranchCond (nm cm : JsonMap) (themeName : String) : Bool :=
  let filePath := themeFile themeName
  match mapGetT nm filePath with
  | some newTheme =>
      let currentTheme := (mapGet cm filePath).getD .null
      let themeKey := jsToLower themeName
      let newVars := jsGuard3 newTheme "color" "theme" themeKey
      let currentVars := jsGuard3 currentTheme "color" "theme" themeKey
      (unionKeys newVars.keys currentVars.keys).any (fun varName =>
        jsStrictNeq (dollarValue newVars varName) (dollarValue currentVars varName))
  | none => false

/-- The per-theme block of `detectChanges` (code.ts lines 2032-2065). -/
def detectThemeBranch (nm cm : JsonMap) (themeName : String) : List String :=
  changedFileIf (detectThemeBranchCond nm cm themeName) (themeFile themeName)

/-- Condition of the foundation-color block of `detectChanges` (code.ts lines
1937-1945): the file is present (truthy) in the new map, its
`color.foundation` has at least one family, and the comparison reports a
difference. -/
def dcFoundationColorCond (nm cm : JsonMap) : Bool :=
  match mapGetT nm TOKEN_FILES.FOUNDATION_COLOR with
  | some newT =>
      (decide (0 < (raw2 newT "color" "foundation").keys.length)) &&
        hasFoundationColorChanges newT ((mapGet cm TOKEN_FILES.FOUNDATION_COLOR).getD .null)
  | none => false

def dcFoundationColor (nm cm : JsonMap) : List String :=
  changedFileIf (dcFoundationColorCond nm cm) TOKEN_FILES.FOUNDATION_COLOR

/-- Condition of the semantic-attachment block (code.ts lines 1948-1956). -/
def dcSemanticAttachmentCond (nm cm : JsonMap) : Bool :=
  match mapGetT nm TOKEN_FILES.SEMANTIC_ATTACHMENT with
  | some newT =>
      (decide (0 < ((raw2 newT "color" "semantic").get "attachment"
          |>.getD .null).keys.length)) &&
        hasSemanticAttachmentChanges newT ((mapGet cm TOKEN_FILES.SEMANTIC_ATTACHMENT).getD .null)
  | none => false

def dcSemanticAttachment (nm cm : JsonMap) : List String :=
  changedFileIf (dcSemanticAttachmentCond nm cm) TOKEN_FILES.SEMANTIC_ATTACHMENT

/-- Condition of the radius block (code.ts lines 1959-1967). -/
def dcFoundationRadiusCond (nm cm : JsonMap) : Bool :=
  match mapGetT nm TOKEN_FILES.FOUNDATION_RADIUS with
  | some newT =>
      (decide (0 < (raw2 newT "radius" "foundation").keys.length)) &&
        hasFoundationRadiusChanges newT ((mapGet cm TOKEN_FILES.FOUNDATION_RADIUS).getD .null)
  | none => false

def dcFoundationRadius (nm cm : JsonMap) : List String :=
  changedFileIf (dcFoundationRadiusCond nm cm) TOKEN_FILES.FOUNDATION_RADIUS

/-- Condition of the inline spacing block (code.ts lines 1970-1996). -/
def dcFoundationSpacingCond (nm cm : JsonMap) : Bool :=
  match mapGetT nm TOKEN_FILES.FOUNDATION_SPACING with
  | some newT =>
      let currentT := (mapGet cm TOKEN_FILES.FOUNDATION_SPACING).getD .null
      let newSizes := jsTernGet newT "spacing" "foundation"
      let currentSizes := jsTernGet currentT "spacing" "foundation"
      (decide (0 < (raw2 newT "spacing" "foundation").keys.length)) &&
        (unionKeys newSizes.keys currentSizes.keys).any (fun size =>
          jsStrictNeq (dollarValue newSizes size) (dollarValue currentSizes size))
  | none => false

def dcFoundationSpacing (nm cm : JsonMap) : List String :=
  changedFileIf (dcFoundationSpacingCond nm cm) TOKEN_FILES.FOUNDATION_SPACING

/-- Condition of the foundation-typography block (code.ts lines 1999-2014). -/
def dcTypographyFoundationCond (nm cm : JsonMap) : Bool :=
  match mapGetT nm TOKEN_FILES.TYPOGRAPHY_FOUNDATION with
  | some newT =>
      let hasTypoTokens := match (newT.getT "typography").bind (fun t => t.getT "foundation") with
        | some fnd => ["fontFamily", "fontSize", "fontWeight", "lineHeight", "letterSpacing"].any
            (fun p => decide (0 < (fnd.getOr p).keys.length))
        | none => false
      hasTypoTokens &&
        hasTypographyChanges newT ((mapGet cm TOKEN_FILES.TYPOGRAPHY_FOUNDATION).getD .null)
  | none => false

def dcTypographyFoundation (nm cm : JsonMap) : List String :=
  changedFileIf (dcTypographyFoundationCond nm cm) TOKEN_FILES.TYPOGRAPHY_FOUNDATION

/-- Condition of the semantic-typography block (code.ts lines 2017-2029):
note both the gate and the comparison look only at `heading` and `body`. -/
def dcTypographySemanticCond (nm cm : JsonMap) : Bool :=
  match mapGetT nm TOKEN_FILES.TYPOGRAPHY_SEMANTIC with
  | some newT =>
      let hasSemanticTypoTokens := match (newT.getT "typography").bind (fun t => t.getT "semantic") with
        | some sem => ["heading", "body"].any (fun p => decide (0 < (sem.getOr p).keys.length))
        | none => false
      hasSemanticTypoTokens &&
        hasSemanticTypographyChanges newT ((mapGet cm TOKEN_FILES.TYPOGRAPHY_SEMANTIC).getD .null)
  | none => false

def dcTypographySemantic (nm cm : JsonMap) : List String :=
  changedFileIf (dcTypographySemanticCond nm cm) TOKEN_FILES.TYPOGRAPHY_SEMANTIC

/-- `detectChanges` (code.ts): per-file branches in source order, each with
its own guard over the freshly extracted tree, pushing the file path when
that file's comparison finds a difference. -/
def detectChanges (nm cm : JsonMap) : ChangeDetection :=
  let changedFiles := dcFoundationColor nm cm ++ dcSemanticAttachment nm cm ++
    dcFoundationRadius nm cm ++ dcFoundationSpacing nm cm ++
    dcTypographyFoundation nm cm ++ dcTypographySemantic nm cm ++
    THEME_NAMES.flatMap (detectThemeBranch nm cm)
  { hasChanges := decide (0 < changedFiles.length), changedFiles := changedFiles }

/-- A Figma RGBA color; channels are 0-1 rationals. -/
structure RGBA where
  r : ℚ
  g : ℚ
  b : ℚ
  a : ℚ
deriving DecidableEq

/-- `Math.round(n * 255)` computed on the canonical numerator/denominator:
`Math.round x = ⌊x + 1/2⌋`, and `n*255 + 1/2 = (510*num + den)/(2*den)`.
`roundTimes255_eq_floor` below proves this equals `⌊n * 255 + 1/2⌋`. -/
def roundTimes255 (n : ℚ) : ℤ :=
  (510 * n.num + (n.den : ℤ)) / (2 * (n.den : ℤ))

/-- Uppercase base-16 rendering of a natural number (`toString(16).toUpperCase()`). -/
def natToHexUpper (n : ℕ) : String :=
  String.mk ((Nat.toDigits 16 n).map Char.toUpper)

/-- JS `Number.prototype.toString(16)` on an integer, uppercased. -/
def intToHexUpper (i : ℤ) : String :=
  if i < 0 then "-" ++ natToHexUpper i.natAbs else natToHexUpper i.natAbs

/-- JS `String.prototype.padStart(2, "0")`. -/
def padStart2 (s : String) : String :=
  String.mk (List.replicate (2 - s.length) '0') ++ s

/-- The `toHex` helper inside `rgbToHex` (code.ts lines 132-135). -/
def toHex (n : ℚ) : String :=
  padStart2 (intToHexUpper (roundTimes255 n))

/-- `rgbToHex` (code.ts): convert Figma RGB (0-1) to uppercase hex, ignoring alpha. -/
def rgbToHex (rgba : RGBA) : String :=
  "#" ++ toHex rgba.r ++ toHex rgba.g ++ toHex rgba.b

/-- JS `String.prototype.split` on a single-character separator. -/
def splitOnChar (c : Char) : List Char → List (List Char)
  | [] => [[]]
  | x :: xs =>
      match splitOnChar c xs with
      | [] => [[]]
      | h :: t => if x = c then [] :: h :: t else (x :: h) :: t

def jsSplit (s : String) (c : Char) : List String :=
  (splitOnChar c s.data).map String.mk

/-- `buildReference` (code.ts): a two-segment variable name becomes a braced
dotted foundation-color reference; any other name is returned verbatim. -/
def buildReference (variableName : String) : String :=
  match jsSplit variableName '/' with
  | [p0, p1] => "\x7bcolor.foundation." ++ p0 ++ "." ++ p1 ++ "\x7d"
  | _ => variableName

/-- ASCII letter test for the `[a-z]+` parts of the name regexes (with `/i`). -/
def isAsciiLetter (c : Char) : Bool :=
  ('a'.val ≤ c.val && c.val ≤ 'z'.val) || ('A'.val ≤ c.val && c.val ≤ 'Z'.val)

/-- `parseSemanticAttachmentName` (code.ts): match `^attachment\/([a-z]+)$` (case
insensitive) and return the lowercased color segment. -/
def parseSemanticAttachmentName (name : String) : Option String :=
  let pre := "attachment/"
  if jsToLower (String.mk (name.data.take pre.length)) == pre then
    let rest := name.data.drop pre.length
    if !rest.isEmpty && rest.all isAsciiLetter then
      some (jsToLower (String.mk rest))
    else none
  else none

/-- The fixed opacity suffixes of the `-(4|8|...|96)$` regex in
`extractThemeTokens`. -/
def OPACITY_SUFFIXES : List String :=
  ["4", "8", "12", "16", "20", "24", "32", "40", "48", "56", "64", "72", "80", "88", "96"]

/-- Test of the opacity-variant regex `dash then (4|8|12|...|96)$/` on a name. -/
def hasOpacitySuffix (name : String) : Bool :=
  OPACITY_SUFFIXES.any (fun s => ("-" ++ s).data.isSuffixOf name.data)

/-- Test of the `/[-]\d+$/` shade regex in `validateFoundationTokens`:
the string ends with a dash followed by one or more digits. -/
def hasDashDigitsSuffix (s : String) : Bool :=
  let ds := s.data.reverse.takeWhile Char.isDigit
  decide (0 < ds.length) && ((s.data.reverse.drop ds.length).head? == some '-')

/-- A Figma variable as the plugin reads it: id, display name, and the value
of its first mode (`variable.valuesByMode[Object.keys(...)[0]]`). -/
inductive VarValue where
  | color (rgba : RGBA)
  | num (n : ℚ)
  | str (s : String)
  | alias (id : ℕ)
deriving DecidableEq

structure FigmaVar where
  id : ℕ
  name : String
  value : VarValue
deriving DecidableEq

/-- The read-only variable lookup `figma.variables.getVariableByIdAsync`. -/
def VarEnv := ℕ → Option FigmaVar

/-- `resolveVariableAlias` (code.ts lines 700-719): one lookup hop; yields a
hex string only when the target's own stored value is a literal color. -/
def resolveVariableAlias (env : VarEnv) (v : FigmaVar) : Option String :=
  match v.value with
  | .alias id =>
      match env id with
      | some aliasedVariable =>
          match aliasedVariable.value with
          | .color rgba => some (rgbToHex rgba)
          | _ => none
      | none => none
  | _ => none

/-- The semantic-attachment branch of `extractAllTokens` (code.ts lines
829-888): returns the `(colorKey, token)` entry added to
`color.semantic.attachment`, or `none` when the variable is skipped. -/
def processSemanticAttachment (env : VarEnv) (v : FigmaVar) : Option (String × Json) :=
  match parseSemanticAttachmentName v.name with
  | none => none
  | some color =>
      match v.value with
      | .alias id =>
          match env id with
          | some aliasedVariable =>
              some (color, Json.obj [("$type", .str "color"),
                ("$value", .str (buildReference aliasedVariable.name))])
          | none => none
      | .color rgba =>
          some (color, Json.obj [("$type", .str "color"), ("$value", .str (rgbToHex rgba))])
      | _ => none

/-- The per-mode value computation of the theme branch of
`extractThemeTokens` (code.ts lines 1162-1197): the `$value` string emitted
for a theme variable, or `none` when it is skipped. -/
def themeTokenValue (env : VarEnv) (value : VarValue) : Option String :=
  match value with
  | .alias id =>
      match env id with
      | some aliasedVariable =>
          if hasOpacitySuffix aliasedVariable.name then none
          else some (buildReference aliasedVariable.name)
      | none => none
  | .color rgba => if rgba.a < 1 then none else some (rgbToHex rgba)
  | _ => none

/-- The token object stored for a theme variable (code.ts lines 1200-1203). -/
def themeToken (tokenValue : String) : Json :=
  Json.obj [("$type", .str "color"), ("$value", .str tokenValue)]

/-- JS assignment `obj[k] = v`: overwrite in place, else append. -/
def Json.set (j : Json) (k : String) (v : Json) : Json :=
  match j with
  | .obj kvs =>
      if kvs.any (fun p => p.1 == k) then
        .obj (kvs.map (fun p => if p.1 == k then (k, v) else p))
      else .obj (kvs ++ [(k, v)])
  | other => other

/-- Fixed radius size order used by the radius post-pass. -/
def RADIUS_SIZES : List String := ["xs", "s", "m", "l", "xl", "full"]

/-- The synthesized `full` radius token (code.ts lines 992-996). -/
def fullRadiusToken : Json :=
  Json.obj [("$type", .str "dimension"), ("$value", .str "50%"),
    ("$description", .str "Full radius - circular elements, pills, fully rounded buttons")]

/-- The radius sort-and-synthesize post-pass of `extractAllTokens` (code.ts
lines 981-999): guarded by the extracted radius tree being non-empty, the
entries are rebuilt in the fixed size order and a `full` entry is added
when absent. -/
def sortRadiusAndAddFull (foundationRadiusTokens : Json) : Json :=
  let fnd := raw2 foundationRadiusTokens "radius" "foundation"
  if 0 < fnd.keys.length then
    let sortedRadius := RADIUS_SIZES.filterMap (fun size => (fnd.getT size).map (fun t => (size, t)))
    let withFull :=
      match (sortedRadius.find? (fun p => p.1 == "full")).map Prod.snd with
      | some t => if t.truthy then sortedRadius else sortedRadius ++ [("full", fullRadiusToken)]
      | none => sortedRadius ++ [("full", fullRadiusToken)]
    foundationRadiusTokens.set "radius"
      (((foundationRadiusTokens.get "radius").getD .null).set "foundation" (Json.obj withFull))
  else foundationRadiusTokens

/-- JS default string comparison: lexicographic by character code. -/
def charListLe : List Char → List Char → Bool
  | [], _ => true
  | _ :: _, [] => false
  | a :: as, b :: bs =>
      if a.val.toNat < b.val.toNat then true
      else if b.val.toNat < a.val.toNat then false
      else charListLe as bs

def strLe (a b : String) : Bool := charListLe a.data b.data

/-- Insertion used by `jsSort`. -/
def jsInsert (x : String) : List String → List String
  | [] => [x]
  | y :: ys => if strLe x y then x :: y :: ys else y :: jsInsert x ys

/-- JS `Array.prototype.sort()` on string arrays (insertion sort; the result
is characterized only up to sortedness and permutation, which determines
it uniquely on duplicate-free inputs). -/
def jsSort : List String → List String
  | [] => []
  | x :: xs => jsInsert x (jsSort xs)

/-- Unguarded JS member access `j.k1.k2.k3`. -/
def raw3 (j : Json) (k1 k2 k3 : String) : Json :=
  ((raw2 j k1 k2).get k3).getD .null

/-- `sortThemeTokens` (code.ts lines 1219-1250): rebuild the new theme
variables with the current file's key order first (restricted to keys that
are still extracted), then genuinely new keys sorted, and wrap the result
back into a fresh `color.theme.<themeKey>` shell. -/
def sortThemeTokens (newTokens currentTokens : Json) (themeName : String) : Json :=
  let themeKey := jsToLower themeName
  let newVars := raw3 newTokens "color" "theme" themeKey
  let currentVars := jsGuard3 currentTokens "color" "theme" themeKey
  let currentOrder := currentVars.keys
  let newKeys := newVars.keys
  let sortedKeys := currentOrder.filter (fun k => newKeys.contains k) ++
    jsSort (newKeys.filter (fun k => !currentOrder.contains k))
  let sorted := sortedKeys.filterMap (fun k => (newVars.get k).map (fun v => (k, v)))
  newTokens.set "color" (Json.obj [("theme", Json.obj [(themeKey, Json.obj sorted)])])

structure ValidationResult where
  valid : Bool
  errors : List String
  warnings : List String
deriving DecidableEq

/-- JS `Object.entries` for objects; `[]` otherwise. -/
def Json.entries : Json → List (String × Json)
  | .obj kvs => kvs
  | _ => []

def isUpperHexDigit (c : Char) : Bool :=
  c.isDigit || ('A'.val ≤ c.val && c.val ≤ 'F'.val)

def isHexDigitCI (c : Char) : Bool :=
  isUpperHexDigit c || ('a'.val ≤ c.val && c.val ≤ 'f'.val)

/-- The strict hex pattern `^#[0-9A-F]\x7b6\x7d$` of `validateFoundationTokens`. -/
def hexTest (s : String) : Bool :=
  match s.data with
  | '#' :: rest => rest.length == 6 && rest.all isUpperHexDigit
  | _ => false

/-- The case-insensitive hex pattern of `validateSemanticTokens`. -/
def hexTestCI (s : String) : Bool :=
  match s.data with
  | '#' :: rest => rest.length == 6 && rest.all isHexDigitCI
  | _ => false

def braceOpenChar : Char := Char.ofNat 123

def braceCloseChar : Char := Char.ofNat 125

/-- JS `String(v)` as used in error-message interpolation.  Number rendering
is abstracted; no claim depends on message text. -/
def jsDisplay : Json → String
  | .str s => s
  | .bool b => if b then "true" else "false"
  | .null => "null"
  | .num _ => "<number>"
  | .arr _ => "<array>"
  | .obj _ => "[object Object]"

/-- `validateFoundationTokens` (code.ts lines 1255-1301). -/
def validateFoundationTokens (tokens : Json) : ValidationResult :=
  let warnings := if (tokens.getT "$schema").isSome then []
    else ["Foundation colors: Missing $schema field"]
  match (tokens.getT "color").bind (fun c => c.getT "foundation") with
  | none =>
      { valid := false, errors := ["Foundation colors: Invalid token structure"],
        warnings := warnings }
  | some foundation =>
      let errors := foundation.entries.flatMap (fun fp =>
        fp.2.entries.flatMap (fun sp =>
          let family := fp.1
          let shade := sp.1
          let token := sp.2
          (if (token.getT "$type") == some (Json.str "color") then []
           else ["Foundation " ++ family ++ "/" ++ shade ++ ": Invalid or missing $type"]) ++
          (match token.getT "$value" with
           | none => ["Foundation " ++ family ++ "/" ++ shade ++ ": Missing $value"]
           | some v =>
               if (match v with | .str s => hexTest s | _ => false) then []
               else ["Foundation " ++ family ++ "/" ++ shade ++ ": Invalid HEX format \"" ++
                 jsDisplay v ++ "\" (must be uppercase 6-digit HEX)"]) ++
          (if hasDashDigitsSuffix shade then
             ["Foundation " ++ family ++ "/" ++ shade ++
               ": Opacity variants not allowed in source tokens"]
           else [])))
      { valid := errors.isEmpty, errors := errors, warnings := warnings }

/-- `validateSemanticTokens` (code.ts lines 1306-1352). -/
def validateSemanticTokens (tokens : Json) : ValidationResult :=
  let warnings0 := if (tokens.getT "$schema").isSome then []
    else ["Semantic tokens: Missing $schema field"]
  match ((tokens.getT "color").bind (fun c => c.getT "semantic")).bind
      (fun s => s.getT "attachment") with
  | none =>
      { valid := false, errors := ["Semantic tokens: Invalid token structure"],
        warnings := warnings0 }
  | some attachment =>
      let results := attachment.entries.map (fun cp =>
        let colorName := cp.1
        let token := cp.2
        let e1 := if (token.getT "$type") == some (Json.str "color") then []
          else ["Semantic attachment/" ++ colorName ++ ": Invalid or missing $type"]
        match token.getT "$value" with
        | none => (e1 ++ ["Semantic attachment/" ++ colorName ++ ": Missing $value"],
            ([] : List String))
        | some v =>
            let isReference := match v with
              | .str s => (s.data.head? == some braceOpenChar) &&
                  (s.data.getLast? == some braceCloseChar)
              | _ => false
            let isHex := match v with | .str s => hexTestCI s | _ => false
            let e2 := if !isReference && !isHex then
                ["Semantic attachment/" ++ colorName ++
                  ": Value must be either a reference or a HEX color"]
              else []
            let w := if isHex then
                ["Semantic attachment/" ++ colorName ++
                  ": Using direct HEX value instead of reference. Consider using foundation color references."]
              else []
            (e1 ++ e2, w))
      let errors := results.flatMap Prod.fst
      { valid := errors.isEmpty, errors := errors,
        warnings := warnings0 ++ results.flatMap Prod.snd }

/-- `validateDimensionTokens` (code.ts lines 1357-1407). -/
def validateDimensionTokens (tokens : Json) (type : String) (expectedSizes : List String) :
    ValidationResult :=
  let warnings0 := if (tokens.getT "$schema").isSome then []
    else [type ++ ": Missing $schema field"]
  match (tokens.getT (jsToLower type)).bind (fun t => t.getT "foundation") with
  | none =>
      { valid := false, errors := [type ++ ": Invalid token structure"], warnings := warnings0 }
  | some foundation =>
      let errors := foundation.entries.flatMap (fun sp =>
        let size := sp.1
        let token := sp.2
        (if (token.getT "$type") == some (Json.str "dimension") then []
         else [type ++ " " ++ size ++ ": Invalid or missing $type (expected \"dimension\")"]) ++
        (match token.get "$value" with
         | none => [type ++ " " ++ size ++ ": Missing $value"]
         | some .null => [type ++ " " ++ size ++ ": Missing $value"]
         | some v =>
             let isNumber := match v with | .num _ => true | _ => false
             let isPercentage := match v with
               | .str s => s.data.getLast? == some '%'
               | _ => false
             if isNumber || isPercentage then []
             else [type ++ " " ++ size ++ ": Value must be a number or percentage string"]))
      let warnings := warnings0 ++ expectedSizes.filterMap (fun size =>
        if (foundation.getT size).isSome then none
        else some (type ++ ": Missing expected size \"" ++ size ++ "\""))
      { valid := errors.isEmpty, errors := errors, warnings := warnings }

def SPACING_SIZES : List String := ["xxxxs", "xs", "m", "l", "xl", "xxl", "xxxl", "xxxxl"]

/-- `validateRadiusTokens` (code.ts). -/
def validateRadiusTokens (tokens : Json) : ValidationResult :=
  validateDimensionTokens tokens "Radius" RADIUS_SIZES

/-- `validateSpacingTokens` (code.ts). -/
def validateSpacingTokens (tokens : Json) : ValidationResult :=
  validateDimensionTokens tokens "Spacing" SPACING_SIZES

/-- `validateSemanticTypographyTokens` (code.ts lines 1426-1470). -/
def validateSemanticTypographyTokens (tokens : Json) : ValidationResult :=
  let warnings0 := if (tokens.getT "$schema").isSome then []
    else ["Semantic typography: Missing $schema field"]
  match (tokens.getT "typography").bind (fun t => t.getT "semantic") with
  | none =>
      { valid := false, errors := ["Semantic typography: Invalid token structure"],
        warnings := warnings0 }
  | some semantic =>
      let errors := ["heading", "body", "code"].flatMap (fun category =>
        match semantic.getT category with
        | none => []
        | some cat => cat.entries.flatMap (fun np =>
            let name := np.1
            let token := np.2
            (if (token.getT "$type") == some (Json.str "typography") then []
             else ["Semantic typography " ++ category ++ "/" ++ name ++
               ": Invalid or missing $type (expected \"typography\")"]) ++
            (match token.getT "$value" with
             | none => ["Semantic typography " ++ category ++ "/" ++ name ++ ": Missing $value"]
             | some v =>
                 ["fontFamily", "fontSize", "fontWeight", "lineHeight", "letterSpacing"].filterMap
                   (fun prop =>
                     if (v.getT prop).isSome then none
                     else some ("Semantic typography " ++ category ++ "/" ++ name ++
                       ": Missing " ++ prop ++ " in $value")))))
      { valid := errors.isEmpty, errors := errors, warnings := warnings0 }

/-- `validateTypographyTokens` (code.ts lines 1475-1582). -/
def validateTypographyTokens (tokens : Json) : ValidationResult :=
  let warnings0 := if (tokens.getT "$schema").isSome then []
    else ["Typography: Missing $schema field"]
  match (tokens.getT "typography").bind (fun t => t.getT "foundation") with
  | none =>
      { valid := false, errors := ["Typography: Invalid token structure"],
        warnings := warnings0 }
  | some foundation =>
      let eFam := match foundation.getT "fontFamily" with
        | none => []
        | some ff => ff.entries.flatMap (fun np =>
            let name := np.1
            let token := np.2
            (if (token.getT "$type") == some (Json.str "fontFamily") then []
             else ["Typography fontFamily " ++ name ++
               ": Invalid or missing $type (expected \"fontFamily\")"]) ++
            (match token.getT "$value" with
             | none => ["Typography fontFamily " ++ name ++ ": Missing $value"]
             | some (.arr xs) =>
                 if xs.isEmpty then
                   ["Typography fontFamily " ++ name ++ ": Font family array cannot be empty"]
                 else if xs.all (fun x => match x with | .str _ => true | _ => false) then []
                 else ["Typography fontFamily " ++ name ++ ": All font family values must be strings"]
             | some _ => ["Typography fontFamily " ++ name ++ ": Value must be an array of strings"]))
      let eSize := match foundation.getT "fontSize" with
        | none => []
        | some fs => fs.entries.flatMap (fun np =>
            let size := np.1
            let token := np.2
            (if (token.getT "$type") == some (Json.str "dimension") then []
             else ["Typography fontSize " ++ size ++
               ": Invalid or missing $type (expected \"dimension\")"]) ++
            (match token.get "$value" with
             | none => ["Typography fontSize " ++ size ++ ": Missing $value"]
             | some .null => ["Typography fontSize " ++ size ++ ": Missing $value"]
             | some (.num q) =>
                 if q ≤ 0 then ["Typography fontSize " ++ size ++ ": Value must be positive"]
                 else []
             | some _ => ["Typography fontSize " ++ size ++ ": Value must be a number"]))
      let eWeight := match foundation.getT "fontWeight" with
        | none => []
        | some fw => fw.entries.flatMap (fun np =>
            let weight := np.1
            let token := np.2
            (if (token.getT "$type") == some (Json.str "fontWeight") then []
             else ["Typography fontWeight " ++ weight ++
               ": Invalid or missing $type (expected \"fontWeight\")"]) ++
            (match token.get "$value" with
             | none => ["Typography fontWeight " ++ weight ++ ": Missing $value"]
             | some .null => ["Typography fontWeight " ++ weight ++ ": Missing $value"]
             | some (.num q) =>
                 if q < 100 ∨ 900 < q then
                   ["Typography fontWeight " ++ weight ++ ": Value must be between 100 and 900"]
                 else []
             | some _ => ["Typography fontWeight " ++ weight ++ ": Value must be a number"]))
      let eHeight := match foundation.getT "lineHeight" with
        | none => []
        | some lh => lh.entries.flatMap (fun np =>
            let height := np.1
            let token := np.2
            (if (token.getT "$type") == some (Json.str "dimension") then []
             else ["Typography lineHeight " ++ height ++
               ": Invalid or missing $type (expected \"dimension\")"]) ++
            (match token.get "$value" with
             | none => ["Typography lineHeight " ++ height ++ ": Missing $value"]
             | some .null => ["Typography lineHeight " ++ height ++ ": Missing $value"]
             | some (.num q) =>
                 if q ≤ 0 then ["Typography lineHeight " ++ height ++ ": Value must be positive"]
                 else []
             | some _ => ["Typography lineHeight " ++ height ++ ": Value must be a number"]))
      let eSpacing := match foundation.getT "letterSpacing" with
        | none => []
        | some ls => ls.entries.flatMap (fun np =>
            let spacing := np.1
            let token := np.2
            (if (token.getT "$type") == some (Json.str "dimension") then []
             else ["Typography letterSpacing " ++ spacing ++
               ": Invalid or missing $type (expected \"dimension\")"]) ++
            (match token.get "$value" with
             | none => ["Typography letterSpacing " ++ spacing ++ ": Missing $value"]
             | some .null => ["Typography letterSpacing " ++ spacing ++ ": Missing $value"]
             | some (.num _) => []
             | some _ => ["Typography letterSpacing " ++ spacing ++ ": Value must be a number"]))
      let errors := eFam ++ eSize ++ eWeight ++ eHeight ++ eSpacing
      { valid := errors.isEmpty, errors := errors, warnings := warnings0 }

/-- `validateAllTokens` (code.ts lines 1587-1650): concatenate the per-file
results over whichever files are present in the map, plus the basic theme
structure checks. -/
def validateAllTokens (tokensMap : JsonMap) : ValidationResult :=
  let r1 := match mapGetT tokensMap TOKEN_FILES.FOUNDATION_COLOR with
    | some t => validateFoundationTokens t
    | none => { valid := true, errors := [], warnings := [] }
  let r2 := match mapGetT tokensMap TOKEN_FILES.SEMANTIC_ATTACHMENT with
    | some t => validateSemanticTokens t
    | none => { valid := true, errors := [], warnings := [] }
  let r3 := match mapGetT tokensMap TOKEN_FILES.FOUNDATION_RADIUS with
    | some t => validateRadiusTokens t
    | none => { valid := true, errors := [], warnings := [] }
  let r4 := match mapGetT tokensMap TOKEN_FILES.FOUNDATION_SPACING with
    | some t => validateSpacingTokens t
    | none => { valid := true, errors := [], warnings := [] }
  let r5 := match mapGetT tokensMap TOKEN_FILES.TYPOGRAPHY_FOUNDATION with
    | some t => validateTypographyTokens t
    | none => { valid := true, errors := [], warnings := [] }
  let r6 := match mapGetT tokensMap TOKEN_FILES.TYPOGRAPHY_SEMANTIC with
    | some t => validateSemanticTypographyTokens t
    | none => { valid := true, errors := [], warnings := [] }
  let themeErrors := THEME_NAMES.flatMap (fun themeName =>
    match mapGetT tokensMap (themeFile themeName) with
    | some tokens =>
        if (((tokens.getT "color").bind (fun c => c.getT "theme")).bind
            (fun t => t.getT (jsToLower themeName))).isSome then []
        else ["Theme " ++ themeName ++ ": Invalid token structure"]
    | none => [])
  let allErrors := r1.errors ++ r2.errors ++ r3.errors ++ r4.errors ++ r5.errors ++
    r6.errors ++ themeErrors
  let allWarnings := r1.warnings ++ r2.warnings ++ r3.warnings ++ r4.warnings ++
    r5.warnings ++ r6.warnings
  { valid := allErrors.isEmpty, errors := allErrors, warnings := allWarnings }

/-- Outcome of one `fetch` of a token file from the repository host:
either the parsed content of an OK response, or a failure carrying the
HTTP status (404 for not-found; 401/500/... for auth or server errors).
A JSON-parse failure of an OK body behaves like `failure` as well, since
`JSON.parse` throws inside the same `try` block. -/
inductive FetchOutcome where
  | success (content : Json)
  | failure (status : ℕ)
deriving DecidableEq

/-- `fetchCurrentTokensFromFile` (code.ts lines 1655-1671): any non-OK
response throws `Failed to fetch <path>: <status>`. -/
def fetchCurrentTokensFromFile (outcome : FetchOutcome) (filePath : String) :
    Except String Json :=
  match outcome with
  | .success content => .ok content
  | .failure status => .error ("Failed to fetch " ++ filePath ++ ": " ++ toString status)

/-- The empty skeleton substituted for each file in the `catch` branches of
`fetchAllCurrentTokens` (code.ts lines 1687, 1697, 1707, 1717, 1727, 1737). -/
def skeletonFor (filePath : String) : Json :=
  if filePath == TOKEN_FILES.FOUNDATION_COLOR then
    .obj [("color", .obj [("foundation", .obj [])])]
  else if filePath == TOKEN_FILES.SEMANTIC_ATTACHMENT then
    .obj [("color", .obj [("semantic", .obj [("attachment", .obj [])])])]
  else if filePath == TOKEN_FILES.FOUNDATION_RADIUS then
    .obj [("radius", .obj [("foundation", .obj [])])]
  else if filePath == TOKEN_FILES.FOUNDATION_SPACING then
    .obj [("spacing", .obj [("foundation", .obj [])])]
  else if filePath == TOKEN_FILES.TYPOGRAPHY_FOUNDATION then
    .obj [("typography", .obj [("foundation", .obj [("fontFamily", .obj []),
      ("fontSize", .obj []), ("fontWeight", .obj []), ("lineHeight", .obj []),
      ("letterSpacing", .obj [])])])]
  else if filePath == TOKEN_FILES.TYPOGRAPHY_SEMANTIC then
    .obj [("typography", .obj [("semantic", .obj [("heading", .obj []),
      ("body", .obj []), ("code", .obj [])])])]
  else
    .obj [("color", .obj [("theme", .obj [(jsToLower (themeNameOf filePath), .obj [])])])]
where
  themeNameOf (filePath : String) : String :=
    (THEME_NAMES.find? (fun t => themeFile t == filePath)).getD ""

/-- The fixed fetch order of `fetchAllCurrentTokens`. -/
def ALL_FILE_PATHS : List String :=
  [TOKEN_FILES.FOUNDATION_COLOR, TOKEN_FILES.SEMANTIC_ATTACHMENT,
   TOKEN_FILES.FOUNDATION_RADIUS, TOKEN_FILES.FOUNDATION_SPACING,
   TOKEN_FILES.TYPOGRAPHY_FOUNDATION, TOKEN_FILES.TYPOGRAPHY_SEMANTIC] ++
  THEME_NAMES.map themeFile

/-- `fetchAllCurrentTokens` (code.ts lines 1676-1752): each of the eleven
files is fetched inside its own `try`; EVERY failure is caught and
replaced with that file's empty skeleton, so the function is total. -/
def fetchAllCurrentTokens (responses : String → FetchOutcome) : JsonMap :=
  ALL_FILE_PATHS.map (fun filePath =>
    (filePath,
      match fetchCurrentTokensFromFile (responses filePath) filePath with
      | .ok content => content
      | .error _ => skeletonFor filePath))

/-- JS assignment `m[k] = v` on the tokens map. -/
def mapSet (m : JsonMap) (k : String) (v : Json) : JsonMap :=
  if m.any (fun p => p.1 == k) then
    m.map (fun p => if p.1 == k then (k, v) else p)
  else m ++ [(k, v)]

/-- The theme re-sorting loop of the sync handler (code.ts lines 2191-2200). -/
def applyThemeSort (tokensMap currentTokensMap : JsonMap) : JsonMap :=
  THEME_NAMES.foldl (fun m themeName =>
    let filePath := themeFile themeName
    match mapGetT m filePath, mapGetT currentTokensMap filePath with
    | some newT, some curT => mapSet m filePath (sortThemeTokens newT curT themeName)
    | _, _ => m) tokensMap

/-- Observable outcome of one `sync-to-github` run: the single `error` event,
the `no-changes` event, or reaching the publish (dispatch) call with the
changed-file list. -/
inductive SyncOutcome where
  | failure (message : String)
  | noChanges
  | published (changedFiles : List String)
deriving DecidableEq

/-- The `sync-to-github` handler (code.ts lines 2143-2232) after extraction:
credential gate, `validateAllTokens` gate, remote fetch, theme re-sort,
change detection, and the publish decision.  The freshly extracted map and
the per-file fetch responses are parameters; `published fs` means the run
reached `triggerGitHubSync` with exactly the files `fs`. -/
def syncRun (hasToken : Bool) (tokensMap : JsonMap)
    (responses : String → FetchOutcome) : SyncOutcome :=
  if !hasToken then
    .failure "GitHub token not configured. Please add it in Settings."
  else
    let validation := validateAllTokens tokensMap
    if !validation.valid then
      .failure ("Validation failed:\n" ++ String.intercalate "\n" validation.errors)
    else
      let currentTokensMap := fetchAllCurrentTokens responses
      let sorted := applyThemeSort tokensMap currentTokensMap
      let changeDetection := detectChanges sorted currentTokensMap
      if !changeDetection.hasChanges then .noChanges
      else .published changeDetection.changedFiles

def c8LowercaseTree : Json :=
  .obj [("$schema", .str "https://tr.designtokens.org/format/"),
    ("color", .obj [("foundation", .obj [("blue",
      .obj [("500", .obj [("$type", .str "color"), ("$value", .str "#1c58d9")])])])])]

def c8OpacityTree : Json :=
  .obj [("$schema", .str "https://tr.designtokens.org/format/"),
    ("color", .obj [("foundation", .obj [("blue",
      .obj [("500-8", .obj [("$type", .str "color"), ("$value", .str "#1C58D9")])])])])]

def c8ValidTree : Json :=
  .obj [("$schema", .str "https://tr.designtokens.org/format/"),
    ("color", .obj [("foundation", .obj [("blue",
      .obj [("500", .obj [("$type", .str "color"), ("$value", .str "#1C58D9")])])])])]

def c5EmptyRadiusTree : Json :=
  .obj [("$schema", .str "https://tr.designtokens.org/format/"),
    ("radius", .obj [("foundation", .obj [])])]

def c5WitnessTree : Json :=
  .obj [("radius", .obj [("foundation", .obj [("m",
    .obj [("$type", .str "dimension"), ("$value", .num 4)])])])]

def c6Env : VarEnv := fun id =>
  if id == 2 then some ⟨2, "accent", .color ⟨1, 1, 1, 1⟩⟩ else none

def c2Env : VarEnv := fun id =>
  if id == 2 then some ⟨2, "blue/300", .alias 3⟩
  else if id == 3 then some ⟨3, "neutral/0", .color ⟨1, 1, 1, 1⟩⟩
  else none

def c2Var : FigmaVar := ⟨1, "attachment/blue", .alias 2⟩

def c3AllFail : String → FetchOutcome := fun _ => .failure 500

def c7BadMap : JsonMap := [(TOKEN_FILES.FOUNDATION_COLOR, Json.obj [])]

def c7Responses : String → FetchOutcome := fun _ => .failure 404

def c4Nm : JsonMap :=
  [(TOKEN_FILES.THEME_DENIM, .obj [("color", .obj [("theme", .obj [("denim", .obj [])])])])]

def c4Cm : JsonMap :=
  [(TOKEN_FILES.THEME_DENIM, .obj [("color", .obj [("theme", .obj [("denim",
    .obj [("sidebar-bg", .obj [("$type", .str "color"),
      ("$value", .str "#FFFFFF")])])])])])]

/-- The key sequence `sortThemeTokens` rebuilds: current order restricted to
still-extracted keys, then genuinely new keys sorted. -/
def themeSortedKeys (newTokens currentTokens : Json) (themeName : String) : List String :=
  let themeKey := jsToLower themeName
  let newKeys := (raw3 newTokens "color" "theme" themeKey).keys
  let currentOrder := (jsGuard3 currentTokens "color" "theme" themeKey).keys
  currentOrder.filter (fun k => newKeys.contains k) ++
    jsSort (newKeys.filter (fun k => !currentOrder.contains k))

def c9New : Json := .obj [("color", .obj [("theme", .obj [("denim", .obj [
  ("b", .obj [("$type", .str "color"), ("$value", .str "#000001")]),
  ("a", .obj [("$type", .str "color"), ("$value", .str "#000002")]),
  ("c", .obj [("$type", .str "color"), ("$value", .str "#000003")])])])])]

def c9Cur : Json := .obj [("color", .obj [("theme", .obj [("denim", .obj [
  ("c", .obj [("$value", .str "#000004")]),
  ("b", .obj [("$value", .str "#000005")]),
  ("x", .obj [("$value", .str "#000006")])])])])]

/-- Claim-side reading of the change rule for the foundation-color file:
some leaf in the union of the two trees' leaf-key sets (family, then
shade) differs by strict inequality of its `$value`. -/
def specDiffFoundationColor (n c : Json) : Prop :=
  ∃ family, (family ∈ (jsGuard2 n "color" "foundation").keys ∨
      family ∈ (jsGuard2 c "color" "foundation").keys) ∧
    ∃ shade, (shade ∈ ((jsGuard2 n "color" "foundation").getOr family).keys ∨
        shade ∈ ((jsGuard2 c "color" "foundation").getOr family).keys) ∧
      jsStrictNeq (dollarValue ((jsGuard2 n "color" "foundation").getOr family) shade)
        (dollarValue ((jsGuard2 c "color" "foundation").getOr family) shade) = true

/-- Claim-side change rule for the semantic-attachment file. -/
def specDiffAttachment (n c : Json) : Prop :=
  ∃ color, (color ∈ (jsGuard3 n "color" "semantic" "attachment").keys ∨
      color ∈ (jsGuard3 c "color" "semantic" "attachment").keys) ∧
    jsStrictNeq (dollarValue (jsGuard3 n "color" "semantic" "attachment") color)
      (dollarValue (jsGuard3 c "color" "semantic" "attachment") color) = true

/-- Claim-side change rule for the radius file. -/
def specDiffRadius (n c : Json) : Prop :=
  ∃ size, (size ∈ (jsGuard2 n "radius" "foundation").keys ∨
      size ∈ (jsGuard2 c "radius" "foundation").keys) ∧
    jsStrictNeq (dollarValue (jsGuard2 n "radius" "foundation") size)
      (dollarValue (jsGuard2 c "radius" "foundation") size) = true

/-- Claim-side change rule for the spacing file (the inline loop). -/
def specDiffSpacing (n c : Json) : Prop :=
  ∃ size, (size ∈ (jsTernGet n "spacing" "foundation").keys ∨
      size ∈ (jsTernGet c "spacing" "foundation").keys) ∧
    jsStrictNeq (dollarValue (jsTernGet n "spacing" "foundation") size)
      (dollarValue (jsTernGet c "spacing" "foundation") size) = true

/-- Claim-side change rule for the foundation-typography file: arrays
(font families) by whole-value structural inequality, other leaves by
strict inequality. -/
def specDiffTypography (n c : Json) : Prop :=
  ∃ property ∈ ["fontFamily", "fontSize", "fontWeight", "lineHeight", "letterSpacing"],
    ∃ key, (key ∈ ((jsGuard2 n "typography" "foundation").getOr property).keys ∨
        key ∈ ((jsGuard2 c "typography" "foundation").getOr property).keys) ∧
      typoLeafDiff (dollarValue ((jsGuard2 n "typography" "foundation").getOr property) key)
        (dollarValue ((jsGuard2 c "typography" "foundation").getOr property) key) = true

/-- Claim-side change rule for the semantic-typography file, as the code
implements it: only the `heading` and `body` categories participate, and
whole composite tokens compare structurally. -/
def specDiffSemanticTypo (n c : Json) : Prop :=
  ∃ category ∈ ["heading", "body"],
    ∃ name, (name ∈ ((jsGuard2 n "typography" "semantic").getOr category).keys ∨
        name ∈ ((jsGuard2 c "typography" "semantic").getOr category).keys) ∧
      ((jsGuard2 n "typography" "semantic").getOr category).get name ≠
        ((jsGuard2 c "typography" "semantic").getOr category).get name

/-- Claim-side change rule for one theme file. -/
def specDiffTheme (n c : Json) (themeKey : String) : Prop :=
  ∃ varName, (varName ∈ (jsGuard3 n "color" "theme" themeKey).keys ∨
      varName ∈ (jsGuard3 c "color" "theme" themeKey).keys) ∧
    jsStrictNeq (dollarValue (jsGuard3 n "color" "theme" themeKey) varName)
      (dollarValue (jsGuard3 c "color" "theme" themeKey) varName) = true

/-- A composite typography token used in the change-detection examples. -/
def c1Tok : Json := .obj [("$value", .str "16px"), ("$type", .str "dimension")]

def c1NewT : Json := .obj [("typography", .obj [("semantic", .obj [
  ("heading", .obj [("100", c1Tok)]),
  ("body", .obj []),
  ("code", .obj [("100", c1Tok)])])])]

def c1CurT : Json := .obj [("typography", .obj [("semantic", .obj [
  ("heading", .obj [("100", c1Tok)]),
  ("body", .obj []),
  ("code", .obj [])])])]

def c1Nm : JsonMap := [(TOKEN_FILES.TYPOGRAPHY_SEMANTIC, c1NewT)]

def c1Cm : JsonMap := [(TOKEN_FILES.TYPOGRAPHY_SEMANTIC, c1CurT)]

def c1wNewT : Json := .obj [("typography", .obj [("semantic", .obj [
  ("heading", .obj [("100", c1Tok)]),
  ("body", .obj [])])])]

def c1wCurT : Json := .obj [("typography", .obj [("semantic", .obj [
  ("heading", .obj []),
  ("body", .obj [])])])]

def c1wNm : JsonMap := [(TOKEN_FILES.TYPOGRAPHY_SEMANTIC, c1wNewT)]

def c1wCm : JsonMap := [(TOKEN_FILES.TYPOGRAPHY_SEMANTIC, c1wCurT)]

theorem mem_unionKeys (k : String) (a b : List String) :
    k ∈ unionKeys a b ↔ k ∈ a ∨ k ∈ b := by
  simp [unionKeys, List.mem_dedup]

theorem unionKeys_any_iff (f : String → Bool) (a b : List String) :
    (unionKeys a b).any f = true ↔ ∃ k, (k ∈ a ∨ k ∈ b) ∧ f k = true := by
  constructor
  · intro h
    rcases List.any_eq_true.mp h with ⟨k, hk, hf⟩
    exact ⟨k, List.mem_append.mp (List.mem_dedup.mp hk), hf⟩
  · intro h
    rcases h with ⟨k, hk, hf⟩
    exact List.any_eq_true.mpr ⟨k, List.mem_dedup.mpr (List.mem_append.mpr hk), hf⟩

theorem roundTimes255_eq_floor (n : ℚ) :
    roundTimes255 n = ⌊(n * 255 + 1/2 : ℚ)⌋ := by
  have hden : ((n.den : ℚ)) ≠ 0 := by
    exact_mod_cast n.den_nz
  have hcast : (n * 255 + 1/2 : ℚ) =
      ((510 * n.num + (n.den : ℤ) : ℤ) : ℚ) / (((2 * n.den : ℕ)) : ℚ) := by
    conv_lhs => rw [← Rat.num_div_den n]
    push_cast
    field_simp
    ring
  rw [hcast, Rat.floor_intCast_div_natCast]
  unfold roundTimes255
  congr 1

theorem find?_map_setEntry_self (l : List (String × Json)) (k : String) (v : Json)
    (h : l.any (fun p => p.1 == k) = true) :
    (l.map (fun p => if p.1 == k then (k, v) else p)).find? (fun p => p.1 == k) =
      some (k, v) := by
  induction l with
  | nil => simp at h
  | cons p rest ih =>
      by_cases hp : p.1 = k
      · have h1 : (if p.1 == k then (k, v) else p) = (k, v) := by simp [hp]
        rw [List.map_cons, h1, List.find?_cons_of_pos _ (by simp)]
      · have h1 : (if p.1 == k then (k, v) else p) = p := by simp [hp]
        have h2 : rest.any (fun p => p.1 == k) = true := by
          have : ¬(p.1 == k) = true := by simp [hp]
          simpa [List.any_cons, this] using h
        rw [List.map_cons, h1, List.find?_cons_of_neg _ (by simp [hp])]
        exact ih h2

theorem find?_map_setEntry_other (l : List (String × Json)) (k q : String) (v : Json)
    (hq : q ≠ k) :
    (l.map (fun p => if p.1 == k then (k, v) else p)).find? (fun p => p.1 == q) =
      l.find? (fun p => p.1 == q) := by
  induction l with
  | nil => rfl
  | cons p rest ih =>
      have hkq : k ≠ q := fun h => hq h.symm
      by_cases hp : p.1 = k
      · have h1 : (if p.1 == k then (k, v) else p) = (k, v) := by simp [hp]
        have hb1 : (((k, v) : String × Json).1 == q) = false := by
          simp only [beq_eq_false_iff_ne, ne_eq]
          exact hkq
        have hb2 : (p.1 == q) = false := by
          simp only [beq_eq_false_iff_ne, ne_eq, hp]
          exact hkq
        rw [List.map_cons, h1, List.find?_cons, List.find?_cons, hb1, hb2]
        exact ih
      · have h1 : (if p.1 == k then (k, v) else p) = p := by simp [hp]
        by_cases hpq : p.1 = q
        · have hb : (p.1 == q) = true := by simp [hpq]
          rw [List.map_cons, h1, List.find?_cons, List.find?_cons, hb]
        · have hb : (p.1 == q) = false := by simp [hpq]
          rw [List.map_cons, h1, List.find?_cons, List.find?_cons, hb]
          exact ih

theorem Json.get_set (kvs : List (String × Json)) (k : String) (v : Json) (q : String) :
    ((Json.obj kvs).set k v).get q =
      if q = k then some v else (Json.obj kvs).get q := by
  simp only [Json.set]
  by_cases hany : kvs.any (fun p => p.1 == k) = true
  · rw [if_pos hany]
    by_cases hq : q = k
    · subst hq
      simp only [Json.get]
      rw [find?_map_setEntry_self kvs q v hany]
      simp
    · simp only [Json.get]
      rw [find?_map_setEntry_other kvs k q v hq]
      simp [if_neg hq]
  · rw [if_neg hany]
    have hnone : kvs.find? (fun p => p.1 == k) = none := by
      rw [List.find?_eq_none]
      intro x hx hpx
      exact hany (List.any_eq_true.mpr ⟨x, hx, hpx⟩)
    by_cases hq : q = k
    · subst hq
      simp [Json.get, List.find?_append, hnone, List.find?_cons]
    · have h2 : (((k, v) : String × Json).1 == q) = false := by
        simp only [beq_eq_false_iff_ne, ne_eq]
        exact fun h => hq h.symm
      simp [Json.get, List.find?_append, List.find?_cons, h2, hq]

/-- C10: `rgbToHex` converts a 0-1 RGB triplet by scaling each channel by
255, rounding to nearest integer (JS `Math.round x = ⌊x + 1/2⌋`), and
zero-padding to two uppercase hex digits, ignoring alpha (the alpha binder
does not occur on the right-hand side); in particular
`rgbToHex {r: 0.1098, g: 0.3451, b: 0.851, a: 1}` equals `"#1C58D9"`. -/
theorem C10_rgbToHex :
    (∀ r g b a : ℚ, rgbToHex ⟨r, g, b, a⟩ =
      "#" ++ padStart2 (intToHexUpper ⌊(r * 255 + 1/2 : ℚ)⌋) ++
        padStart2 (intToHexUpper ⌊(g * 255 + 1/2 : ℚ)⌋) ++
        padStart2 (intToHexUpper ⌊(b * 255 + 1/2 : ℚ)⌋)) ∧
    rgbToHex ⟨mkRat 1098 10000, mkRat 3451 10000, mkRat 851 1000, 1⟩ = "#1C58D9" := by
  constructor
  · intro r g b a
    simp [rgbToHex, toHex, roundTimes255_eq_floor]
  · decide

/-- C8: `validateFoundationTokens` reports a hard error for a foundation
color leaf with lowercase value `"#1c58d9"`, and for a leaf keyed `500-8`
under family `blue` (trailing numeric opacity suffix), and reports no
error for `$value "#1C58D9"` under `blue/500` with `$type "color"`. -/
theorem C8_validateFoundationTokens :
    (validateFoundationTokens c8LowercaseTree).errors ≠ [] ∧
    (validateFoundationTokens c8OpacityTree).errors ≠ [] ∧
    (validateFoundationTokens c8ValidTree).errors = [] := by
  refine ⟨?_, ?_, ?_⟩ <;> decide

/-- C5 counterexample: an extracted radius tree with an empty
`radius.foundation` (which certainly lacks a `full` entry) gains nothing:
the post-pass is a no-op on it and no `full` entry appears, contradicting
"regardless of source content — including when the extracted radius tree
is empty". -/
theorem C5_counterexample :
    sortRadiusAndAddFull c5EmptyRadiusTree = c5EmptyRadiusTree ∧
    (raw2 (sortRadiusAndAddFull c5EmptyRadiusTree) "radius" "foundation").get "full" = none := by
  constructor <;> decide

/-- C5 amended: after building, every NON-EMPTY radius token tree that lacks
a `full` entry gains one with the fixed literal value `"50%"` and the fixed
description; an empty extracted radius tree is left untouched because the
whole post-pass is guarded by non-emptiness. -/
theorem C5_sortRadiusAndAddFull_synthesizes_full (t : Json)
    (h1 : 0 < (raw2 t "radius" "foundation").keys.length)
    (h2 : (raw2 t "radius" "foundation").getT "full" = none) :
    (raw2 (sortRadiusAndAddFull t) "radius" "foundation").get "full" =
      some fullRadiusToken := by
  obtain ⟨r, hr⟩ : ∃ r, t.get "radius" = some r := by
    cases ht : t.get "radius" with
    | none => rw [raw2, ht] at h1; simp [Json.get, Json.keys] at h1
    | some r => exact ⟨r, rfl⟩
  obtain ⟨fk, hfk⟩ : ∃ fk, r.get "foundation" = some (Json.obj fk) := by
    cases hf : r.get "foundation" with
    | none => rw [raw2, hr] at h1; simp [hf, Json.keys] at h1
    | some f =>
        cases f with
        | obj fk => exact ⟨fk, rfl⟩
        | str s => rw [raw2, hr] at h1; simp [hf, Json.keys] at h1
        | num q => rw [raw2, hr] at h1; simp [hf, Json.keys] at h1
        | bool b => rw [raw2, hr] at h1; simp [hf, Json.keys] at h1
        | null => rw [raw2, hr] at h1; simp [hf, Json.keys] at h1
        | arr xs => rw [raw2, hr] at h1; simp [hf, Json.keys] at h1
  obtain ⟨kvs, hkvs⟩ : ∃ kvs, t = Json.obj kvs := by
    cases t with
    | obj kvs => exact ⟨kvs, rfl⟩
    | str s => simp [Json.get] at hr
    | num q => simp [Json.get] at hr
    | bool b => simp [Json.get] at hr
    | null => simp [Json.get] at hr
    | arr xs => simp [Json.get] at hr
  obtain ⟨rkvs, hrkvs⟩ : ∃ rkvs, r = Json.obj rkvs := by
    cases r with
    | obj rkvs => exact ⟨rkvs, rfl⟩
    | str s => simp [Json.get] at hfk
    | num q => simp [Json.get] at hfk
    | bool b => simp [Json.get] at hfk
    | null => simp [Json.get] at hfk
    | arr xs => simp [Json.get] at hfk
  have hfnd : raw2 t "radius" "foundation" = Json.obj fk := by
    rw [raw2, hr]
    simp only [Option.getD_some]
    rw [hfk]
    rfl
  unfold sortRadiusAndAddFull
  rw [if_pos h1]
  have hfind : (RADIUS_SIZES.filterMap (fun size =>
      ((raw2 t "radius" "foundation").getT size).map (fun tok => (size, tok)))).find?
        (fun p => p.1 == "full") = none := by
    rw [List.find?_eq_none]
    intro x hx hpx
    rcases List.mem_filterMap.mp hx with ⟨size, _, hsome⟩
    cases hgt : (raw2 t "radius" "foundation").getT size with
    | none => rw [hgt] at hsome; exact Option.noConfusion hsome
    | some tok =>
        rw [hgt] at hsome
        have hsome2 : ((size, tok) : String × Json) = x :=
          Option.some.inj hsome
        have hx1 : x.1 = size := by rw [← hsome2]
        rw [hx1] at hpx
        have : size = "full" := by simpa using hpx
        rw [this] at hgt
        rw [h2] at hgt
        cases hgt
  have hwithFull : (match ((RADIUS_SIZES.filterMap (fun size =>
      ((raw2 t "radius" "foundation").getT size).map (fun tok => (size, tok)))).find?
        (fun p => p.1 == "full")).map Prod.snd with
      | some tok => if tok.truthy then (RADIUS_SIZES.filterMap (fun size =>
          ((raw2 t "radius" "foundation").getT size).map (fun tok => (size, tok))))
        else (RADIUS_SIZES.filterMap (fun size =>
          ((raw2 t "radius" "foundation").getT size).map (fun tok => (size, tok)))) ++
          [("full", fullRadiusToken)]
      | none => (RADIUS_SIZES.filterMap (fun size =>
          ((raw2 t "radius" "foundation").getT size).map (fun tok => (size, tok)))) ++
          [("full", fullRadiusToken)]) =
      (RADIUS_SIZES.filterMap (fun size =>
        ((raw2 t "radius" "foundation").getT size).map (fun tok => (size, tok)))) ++
        [("full", fullRadiusToken)] := by
    rw [hfind]
    rfl
  rw [hkvs] at hr ⊢
  rw [hr]
  simp only [Option.getD_some]
  rw [hrkvs]
  rw [raw2, Json.get_set kvs "radius" _ "radius", if_pos rfl]
  simp only [Option.getD_some]
  rw [Json.get_set rkvs "foundation" _ "foundation", if_pos rfl]
  simp only [Option.getD_some]
  rw [← hkvs, ← hrkvs] at *
  rw [hwithFull]
  simp only [Json.get, List.find?_append, hfind, Option.none_or]
  rw [List.find?_cons_of_pos _ (by simp)]
  rfl

theorem C5_sortRadiusAndAddFull_witness :
    (raw2 (sortRadiusAndAddFull c5WitnessTree) "radius" "foundation").get "full" =
      some fullRadiusToken :=
  C5_sortRadiusAndAddFull_synthesizes_full c5WitnessTree (by decide) (by decide)

/-- C6 counterexample: a theme variable whose alias resolves to a variable
named `accent` (not two slash-separated segments) emits the raw variable
name `"accent"` as its `$value` — not a braced reference, not a hex
literal, not a number, not an array — because `buildReference` falls back
to returning the name verbatim. -/
theorem C6_counterexample :
    themeTokenValue c6Env (.alias 2) = some "accent" ∧
    "accent".data.head? ≠ some braceOpenChar ∧
    hexTest "accent" = false := by
  refine ⟨?_, ?_, ?_⟩ <;> decide

/-- C6 amended: for every successfully resolved alias (in the theme path,
after the opacity-suffix check) the emitted `$value` is
`buildReference target.name`, which is a braced dotted foundation-color
reference exactly when the target's name splits into two `/`-separated
segments; for any other name shape the target's raw name string is emitted
verbatim. -/
theorem C6_themeAlias_buildReference (env : VarEnv) (id : ℕ) (target : FigmaVar)
    (hlookup : env id = some target)
    (hop : hasOpacitySuffix target.name = false) :
    themeTokenValue env (.alias id) = some (buildReference target.name) ∧
    (∀ p0 p1, jsSplit target.name '/' = [p0, p1] →
      buildReference target.name = "\x7bcolor.foundation." ++ p0 ++ "." ++ p1 ++ "\x7d") ∧
    (∀ parts, jsSplit target.name '/' = parts → parts.length ≠ 2 →
      buildReference target.name = target.name) := by
  refine ⟨?_, ?_, ?_⟩
  · simp [themeTokenValue, hlookup, hop]
  · intro p0 p1 h
    simp [buildReference, h]
  · intro parts h hlen
    unfold buildReference
    rw [h]
    match parts, hlen with
    | [], _ => rfl
    | [a], _ => rfl
    | [a, b], hlen => exact absurd rfl hlen
    | a :: b :: c :: r, _ => rfl

theorem C6_themeAlias_buildReference_witness :
    themeTokenValue c6Env (.alias 2) = some (buildReference "accent") :=
  (C6_themeAlias_buildReference c6Env 2 ⟨2, "accent", .color ⟨1, 1, 1, 1⟩⟩
    (by decide) (by decide)).1

/-- C2 counterexample: `attachment/blue` aliases variable 2 (`blue/300`)
whose own stored value is itself an alias (to variable 3) — a chain longer
than one hop.  The dead helper `resolveVariableAlias` would indeed fail,
but the semantic-attachment extraction path still emits a reference token
built from the target's name, so the source token is NOT skipped. -/
theorem C2_counterexample :
    (c2Env 2).map FigmaVar.value = some (.alias 3) ∧
    resolveVariableAlias c2Env c2Var = none ∧
    processSemanticAttachment c2Env c2Var =
      some ("blue", Json.obj [("$type", .str "color"),
        ("$value", .str "\x7bcolor.foundation.blue.300\x7d")]) := by
  refine ⟨?_, ?_, ?_⟩ <;> decide

/-- C2 amended: every alias resolution performs exactly one lookup hop.
In the hex-resolving helper `resolveVariableAlias`, a target whose own
stored value is itself an alias makes resolution fail (`none`).  But the
emission paths do not inspect the target's stored value: the
semantic-attachment branch emits a reference token built from the target's
name whenever the lookup succeeds, and the theme branch does so whenever
the lookup succeeds and the target's name has no opacity suffix — even
when the target is itself an alias. -/
theorem C2_one_hop_resolution :
    (∀ (env : VarEnv) (v : FigmaVar) (id id2 : ℕ) (target : FigmaVar),
      v.value = .alias id → env id = some target → target.value = .alias id2 →
      resolveVariableAlias env v = none) ∧
    (∀ (env : VarEnv) (v : FigmaVar) (color : String) (id : ℕ) (target : FigmaVar),
      parseSemanticAttachmentName v.name = some color →
      v.value = .alias id → env id = some target →
      processSemanticAttachment env v =
        some (color, Json.obj [("$type", .str "color"),
          ("$value", .str (buildReference target.name))])) ∧
    (∀ (env : VarEnv) (id : ℕ) (target : FigmaVar),
      env id = some target → hasOpacitySuffix target.name = false →
      themeTokenValue env (.alias id) = some (buildReference target.name)) := by
  refine ⟨?_, ?_, ?_⟩
  · intro env v id id2 target hv hl ht
    simp [resolveVariableAlias, hv, hl, ht]
  · intro env v color id target hp hv hl
    simp [processSemanticAttachment, hp, hv, hl]
  · intro env id target hl hop
    simp [themeTokenValue, hl, hop]

theorem C2_one_hop_resolution_witness :
    resolveVariableAlias c2Env c2Var = none ∧
    processSemanticAttachment c2Env c2Var =
      some ("blue", Json.obj [("$type", .str "color"),
        ("$value", .str (buildReference "blue/300"))]) :=
  ⟨C2_one_hop_resolution.1 c2Env c2Var 2 3 ⟨2, "blue/300", .alias 3⟩
      (by decide) (by decide) (by decide),
    C2_one_hop_resolution.2.1 c2Env c2Var "blue" 2 ⟨2, "blue/300", .alias 3⟩
      (by decide) (by decide) (by decide)⟩

theorem mapGet_map_self (l : List String) (f : String → Json) (q : String) (h : q ∈ l) :
    mapGet (l.map (fun p => (p, f p))) q = some (f q) := by
  induction l with
  | nil => cases h
  | cons p rest ih =>
      by_cases hpq : p = q
      · subst hpq
        simp [mapGet, List.find?_cons_of_pos _ (by simp : ((p, f p).1 == p) = true)]
      · have hb : (((p, f p) : String × Json).1 == q) = false := by simp [hpq]
        have hmem : q ∈ rest := by
          cases List.mem_cons.mp h with
          | inl he => exact absurd he.symm hpq
          | inr hm => exact hm
        rw [List.map_cons]
        rw [show mapGet ((p, f p) :: rest.map (fun p => (p, f p))) q =
          mapGet (rest.map (fun p => (p, f p))) q from by
            simp [mapGet, List.find?_cons, hb]]
        exact ih hmem

/-- C3 counterexample: with every response failing with HTTP 500 (a
network/auth failure distinct from not-found), the single-file fetch does
throw, but `fetchAllCurrentTokens` catches it per file and substitutes the
empty skeleton for all eleven files, and a sync run proceeds past the
fetch into diffing and ends normally — nothing aborts the run. -/
theorem C3_counterexample :
    fetchCurrentTokensFromFile (.failure 500) TOKEN_FILES.FOUNDATION_COLOR =
      .error "Failed to fetch tokens/src/foundation/color.json: 500" ∧
    fetchAllCurrentTokens c3AllFail = ALL_FILE_PATHS.map (fun p => (p, skeletonFor p)) ∧
    syncRun true [] c3AllFail = .noChanges := by
  refine ⟨rfl, by decide, by decide⟩

/-- C3 amended: during the remote-snapshot fetch, EVERY per-file failure —
not-found and network/auth failures alike (any non-OK status) — is
substituted with that file's empty skeleton tree and is not an error; a
successful response contributes its parsed content; no fetch outcome can
abort the run (`fetchAllCurrentTokens` is total). -/
theorem C3_fetch_failures_substituted (rs : String → FetchOutcome) (p : String)
    (hp : p ∈ ALL_FILE_PATHS) :
    (∀ s, rs p = .failure s → mapGet (fetchAllCurrentTokens rs) p = some (skeletonFor p)) ∧
    (∀ j, rs p = .success j → mapGet (fetchAllCurrentTokens rs) p = some j) := by
  constructor
  · intro s hs
    unfold fetchAllCurrentTokens
    rw [mapGet_map_self ALL_FILE_PATHS _ p hp]
    rw [hs]
    rfl
  · intro j hj
    unfold fetchAllCurrentTokens
    rw [mapGet_map_self ALL_FILE_PATHS _ p hp]
    rw [hj]
    rfl

theorem C3_fetch_failures_substituted_witness :
    mapGet (fetchAllCurrentTokens c3AllFail) TOKEN_FILES.FOUNDATION_COLOR =
      some (skeletonFor TOKEN_FILES.FOUNDATION_COLOR) :=
  (C3_fetch_failures_substituted c3AllFail TOKEN_FILES.FOUNDATION_COLOR
    (by decide)).1 500 rfl

theorem validateAllTokens_valid_eq (m : JsonMap) :
    (validateAllTokens m).valid = (validateAllTokens m).errors.isEmpty := rfl

theorem detectChanges_hasChanges_eq (nm cm : JsonMap) :
    (detectChanges nm cm).hasChanges =
      decide (0 < (detectChanges nm cm).changedFiles.length) := rfl

/-- C7: if `validateAllTokens` reports any hard error for the freshly built
token map, the sync run ends in the `error` outcome before the publish
(dispatch) call — it is never `published`; and when the error list is
empty the run's outcome is decided solely by change detection (warnings
do not occur in the control flow at all), so warnings alone never prevent
the run from reaching the publish step. -/
theorem C7_validation_gate (m : JsonMap) (rs : String → FetchOutcome) :
    ((validateAllTokens m).errors ≠ [] →
      ∀ fs, syncRun true m rs ≠ .published fs) ∧
    ((validateAllTokens m).errors = [] →
      syncRun true m rs =
        (if (detectChanges (applyThemeSort m (fetchAllCurrentTokens rs))
              (fetchAllCurrentTokens rs)).hasChanges
          then .published (detectChanges (applyThemeSort m (fetchAllCurrentTokens rs))
              (fetchAllCurrentTokens rs)).changedFiles
          else .noChanges)) := by
  constructor
  · intro herr fs
    have hval : (validateAllTokens m).valid = false := by
      rw [validateAllTokens_valid_eq]
      cases h : (validateAllTokens m).errors with
      | nil => exact absurd h herr
      | cons a l => rfl
    simp [syncRun, hval]
  · intro herr
    have hval : (validateAllTokens m).valid = true := by
      rw [validateAllTokens_valid_eq, herr]
      rfl
    simp only [syncRun, Bool.not_true, Bool.false_eq_true, if_false, hval]
    cases hch : (detectChanges (applyThemeSort m (fetchAllCurrentTokens rs))
        (fetchAllCurrentTokens rs)).hasChanges <;> simp [hch]

theorem C7_validation_gate_witness :
    syncRun true c7BadMap c7Responses ≠ .published [] :=
  (C7_validation_gate c7BadMap c7Responses).1 (by decide) []

theorem mem_changedFileIf {x p : String} {b : Bool} :
    x ∈ changedFileIf b p ↔ b = true ∧ x = p := by
  unfold changedFileIf
  cases b <;> simp

theorem mem_detectChanges (nm cm : JsonMap) (x : String) :
    x ∈ (detectChanges nm cm).changedFiles ↔
      (dcFoundationColorCond nm cm = true ∧ x = TOKEN_FILES.FOUNDATION_COLOR) ∨
      (dcSemanticAttachmentCond nm cm = true ∧ x = TOKEN_FILES.SEMANTIC_ATTACHMENT) ∨
      (dcFoundationRadiusCond nm cm = true ∧ x = TOKEN_FILES.FOUNDATION_RADIUS) ∨
      (dcFoundationSpacingCond nm cm = true ∧ x = TOKEN_FILES.FOUNDATION_SPACING) ∨
      (dcTypographyFoundationCond nm cm = true ∧ x = TOKEN_FILES.TYPOGRAPHY_FOUNDATION) ∨
      (dcTypographySemanticCond nm cm = true ∧ x = TOKEN_FILES.TYPOGRAPHY_SEMANTIC) ∨
      (∃ t, t ∈ THEME_NAMES ∧ detectThemeBranchCond nm cm t = true ∧ x = themeFile t) := by
  simp only [detectChanges, dcFoundationColor, dcSemanticAttachment, dcFoundationRadius,
    dcFoundationSpacing, dcTypographyFoundation, dcTypographySemantic, detectThemeBranch,
    List.mem_append, List.mem_flatMap, mem_changedFileIf, or_assoc]

theorem mem_dc_foundationColor (nm cm : JsonMap) :
    TOKEN_FILES.FOUNDATION_COLOR ∈ (detectChanges nm cm).changedFiles ↔
      dcFoundationColorCond nm cm = true := by
  rw [mem_detectChanges]
  constructor
  · rintro (⟨h, _⟩ | ⟨_, he⟩ | ⟨_, he⟩ | ⟨_, he⟩ | ⟨_, he⟩ | ⟨_, he⟩ | ⟨t, ht, _, he⟩)
    · exact h
    · exact absurd he (by decide)
    · exact absurd he (by decide)
    · exact absurd he (by decide)
    · exact absurd he (by decide)
    · exact absurd he (by decide)
    · exact absurd he
        ((by decide : ∀ u ∈ THEME_NAMES,
          TOKEN_FILES.FOUNDATION_COLOR ≠ themeFile u) t ht)
  · intro h
    exact Or.inl ⟨h, rfl⟩

theorem mem_dc_semanticAttachment (nm cm : JsonMap) :
    TOKEN_FILES.SEMANTIC_ATTACHMENT ∈ (detectChanges nm cm).changedFiles ↔
      dcSemanticAttachmentCond nm cm = true := by
  rw [mem_detectChanges]
  constructor
  · rintro (⟨_, he⟩ | ⟨h, _⟩ | ⟨_, he⟩ | ⟨_, he⟩ | ⟨_, he⟩ | ⟨_, he⟩ | ⟨t, ht, _, he⟩)
    · exact absurd he (by decide)
    · exact h
    · exact absurd he (by decide)
    · exact absurd he (by decide)
    · exact absurd he (by decide)
    · exact absurd he (by decide)
    · exact absurd he
        ((by decide : ∀ u ∈ THEME_NAMES,
          TOKEN_FILES.SEMANTIC_ATTACHMENT ≠ themeFile u) t ht)
  · intro h
    exact Or.inr (Or.inl ⟨h, rfl⟩)

theorem mem_dc_foundationRadius (nm cm : JsonMap) :
    TOKEN_FILES.FOUNDATION_RADIUS ∈ (detectChanges nm cm).changedFiles ↔
      dcFoundationRadiusCond nm cm = true := by
  rw [mem_detectChanges]
  constructor
  · rintro (⟨_, he⟩ | ⟨_, he⟩ | ⟨h, _⟩ | ⟨_, he⟩ | ⟨_, he⟩ | ⟨_, he⟩ | ⟨t, ht, _, he⟩)
    · exact absurd he (by decide)
    · exact absurd he (by decide)
    · exact h
    · exact absurd he (by decide)
    · exact absurd he (by decide)
    · exact absurd he (by decide)
    · exact absurd he
        ((by decide : ∀ u ∈ THEME_NAMES,
          TOKEN_FILES.FOUNDATION_RADIUS ≠ themeFile u) t ht)
  · intro h
    exact Or.inr (Or.inr (Or.inl ⟨h, rfl⟩))

theorem mem_dc_foundationSpacing (nm cm : JsonMap) :
    TOKEN_FILES.FOUNDATION_SPACING ∈ (detectChanges nm cm).changedFiles ↔
      dcFoundationSpacingCond nm cm = true := by
  rw [mem_detectChanges]
  constructor
  · rintro (⟨_, he⟩ | ⟨_, he⟩ | ⟨_, he⟩ | ⟨h, _⟩ | ⟨_, he⟩ | ⟨_, he⟩ | ⟨t, ht, _, he⟩)
    · exact absurd he (by decide)
    · exact absurd he (by decide)
    · exact absurd he (by decide)
    · exact h
    · exact absurd he (by decide)
    · exact absurd he (by decide)
    · exact absurd he
        ((by decide : ∀ u ∈ THEME_NAMES,
          TOKEN_FILES.FOUNDATION_SPACING ≠ themeFile u) t ht)
  · intro h
    exact Or.inr (Or.inr (Or.inr (Or.inl ⟨h, rfl⟩)))

theorem mem_dc_typographyFoundation (nm cm : JsonMap) :
    TOKEN_FILES.TYPOGRAPHY_FOUNDATION ∈ (detectChanges nm cm).changedFiles ↔
      dcTypographyFoundationCond nm cm = true := by
  rw [mem_detectChanges]
  constructor
  · rintro (⟨_, he⟩ | ⟨_, he⟩ | ⟨_, he⟩ | ⟨_, he⟩ | ⟨h, _⟩ | ⟨_, he⟩ | ⟨t, ht, _, he⟩)
    · exact absurd he (by decide)
    · exact absurd he (by decide)
    · exact absurd he (by decide)
    · exact absurd he (by decide)
    · exact h
    · exact absurd he (by decide)
    · exact absurd he
        ((by decide : ∀ u ∈ THEME_NAMES,
          TOKEN_FILES.TYPOGRAPHY_FOUNDATION ≠ themeFile u) t ht)
  · intro h
    exact Or.inr (Or.inr (Or.inr (Or.inr (Or.inl ⟨h, rfl⟩))))

theorem mem_dc_typographySemantic (nm cm : JsonMap) :
    TOKEN_FILES.TYPOGRAPHY_SEMANTIC ∈ (detectChanges nm cm).changedFiles ↔
      dcTypographySemanticCond nm cm = true := by
  rw [mem_detectChanges]
  constructor
  · rintro (⟨_, he⟩ | ⟨_, he⟩ | ⟨_, he⟩ | ⟨_, he⟩ | ⟨_, he⟩ | ⟨h, _⟩ | ⟨t, ht, _, he⟩)
    · exact absurd he (by decide)
    · exact absurd he (by decide)
    · exact absurd he (by decide)
    · exact absurd he (by decide)
    · exact absurd he (by decide)
    · exact h
    · exact absurd he
        ((by decide : ∀ u ∈ THEME_NAMES,
          TOKEN_FILES.TYPOGRAPHY_SEMANTIC ≠ themeFile u) t ht)
  · intro h
    exact Or.inr (Or.inr (Or.inr (Or.inr (Or.inr (Or.inl ⟨h, rfl⟩)))))

theorem mem_dc_theme (nm cm : JsonMap) (t : String) (ht : t ∈ THEME_NAMES) :
    themeFile t ∈ (detectChanges nm cm).changedFiles ↔
      detectThemeBranchCond nm cm t = true := by
  rw [mem_detectChanges]
  constructor
  · rintro (⟨_, he⟩ | ⟨_, he⟩ | ⟨_, he⟩ | ⟨_, he⟩ | ⟨_, he⟩ | ⟨_, he⟩ | ⟨t2, ht2, hc, he⟩)
    · exact absurd he
        ((by decide : ∀ u ∈ THEME_NAMES,
          themeFile u ≠ TOKEN_FILES.FOUNDATION_COLOR) t ht)
    · exact absurd he
        ((by decide : ∀ u ∈ THEME_NAMES,
          themeFile u ≠ TOKEN_FILES.SEMANTIC_ATTACHMENT) t ht)
    · exact absurd he
        ((by decide : ∀ u ∈ THEME_NAMES,
          themeFile u ≠ TOKEN_FILES.FOUNDATION_RADIUS) t ht)
    · exact absurd he
        ((by decide : ∀ u ∈ THEME_NAMES,
          themeFile u ≠ TOKEN_FILES.FOUNDATION_SPACING) t ht)
    · exact absurd he
        ((by decide : ∀ u ∈ THEME_NAMES,
          themeFile u ≠ TOKEN_FILES.TYPOGRAPHY_FOUNDATION) t ht)
    · exact absurd he
        ((by decide : ∀ u ∈ THEME_NAMES,
          themeFile u ≠ TOKEN_FILES.TYPOGRAPHY_SEMANTIC) t ht)
    · have heq : t = t2 :=
        (by decide : ∀ u ∈ THEME_NAMES, ∀ u2 ∈ THEME_NAMES,
          themeFile u = themeFile u2 → u = u2) t ht t2 ht2 he
      rw [heq]
      exact hc
  · intro h
    exact Or.inr (Or.inr (Or.inr (Or.inr (Or.inr (Or.inr ⟨t, ht, h, rfl⟩)))))

theorem Json.get_eq_none_of_keys_nil {j : Json} (h : j.keys = []) (k : String) :
    j.get k = none := by
  cases j with
  | obj kvs =>
      cases kvs with
      | nil => rfl
      | cons p rest => simp [Json.keys] at h
  | str s => rfl
  | num q => rfl
  | bool b => rfl
  | null => rfl
  | arr xs => rfl

theorem jsStrictNeq_none_left (b : Option Json) : jsStrictNeq none b = b.isSome := by
  cases b <;> rfl

/-- C4 counterexample: the Denim theme file is present in the new map with
ZERO extracted entries (`color.theme.denim` is empty), yet `detectChanges`
still compares it against the current tree and flags it as changed because
the current tree holds a variable — the theme branch has no
zero-extracted-entries guard. -/
theorem C4_counterexample :
    (jsGuard3 ((mapGet c4Nm TOKEN_FILES.THEME_DENIM).getD .null)
      "color" "theme" "denim").keys = [] ∧
    (detectChanges c4Nm c4Cm).changedFiles = [TOKEN_FILES.THEME_DENIM] := by
  constructor <;> decide

/-- C4 amended: for the six non-theme files, a tree with zero extracted
entries is never flagged — each branch is guarded by non-emptiness of the
freshly extracted content.  A theme file present in the new map has no such
guard: it is compared even when its extracted variable set is empty, and is
then flagged exactly when the current (remote) tree contains some variable
with a defined `$value`. -/
theorem C4_empty_tree_guards (nm cm : JsonMap) :
    (∀ newT, mapGetT nm TOKEN_FILES.FOUNDATION_COLOR = some newT →
      (raw2 newT "color" "foundation").keys = [] →
      TOKEN_FILES.FOUNDATION_COLOR ∉ (detectChanges nm cm).changedFiles) ∧
    (∀ newT, mapGetT nm TOKEN_FILES.SEMANTIC_ATTACHMENT = some newT →
      (((raw2 newT "color" "semantic").get "attachment").getD .null).keys = [] →
      TOKEN_FILES.SEMANTIC_ATTACHMENT ∉ (detectChanges nm cm).changedFiles) ∧
    (∀ newT, mapGetT nm TOKEN_FILES.FOUNDATION_RADIUS = some newT →
      (raw2 newT "radius" "foundation").keys = [] →
      TOKEN_FILES.FOUNDATION_RADIUS ∉ (detectChanges nm cm).changedFiles) ∧
    (∀ newT, mapGetT nm TOKEN_FILES.FOUNDATION_SPACING = some newT →
      (raw2 newT "spacing" "foundation").keys = [] →
      TOKEN_FILES.FOUNDATION_SPACING ∉ (detectChanges nm cm).changedFiles) ∧
    (∀ newT, mapGetT nm TOKEN_FILES.TYPOGRAPHY_FOUNDATION = some newT →
      (∀ p ∈ ["fontFamily", "fontSize", "fontWeight", "lineHeight", "letterSpacing"],
        ((jsGuard2 newT "typography" "foundation").getOr p).keys = []) →
      TOKEN_FILES.TYPOGRAPHY_FOUNDATION ∉ (detectChanges nm cm).changedFiles) ∧
    (∀ newT, mapGetT nm TOKEN_FILES.TYPOGRAPHY_SEMANTIC = some newT →
      (∀ p ∈ ["heading", "body", "code"],
        ((jsGuard2 newT "typography" "semantic").getOr p).keys = []) →
      TOKEN_FILES.TYPOGRAPHY_SEMANTIC ∉ (detectChanges nm cm).changedFiles) ∧
    (∀ t ∈ THEME_NAMES, ∀ newT, mapGetT nm (themeFile t) = some newT →
      (jsGuard3 newT "color" "theme" (jsToLower t)).keys = [] →
      (themeFile t ∈ (detectChanges nm cm).changedFiles ↔
        ∃ k ∈ (jsGuard3 ((mapGet cm (themeFile t)).getD .null)
            "color" "theme" (jsToLower t)).keys,
          dollarValue (jsGuard3 ((mapGet cm (themeFile t)).getD .null)
            "color" "theme" (jsToLower t)) k ≠ none)) := by
  refine ⟨?_, ?_, ?_, ?_, ?_, ?_, ?_⟩
  · intro newT h hk hmem
    rw [mem_dc_foundationColor] at hmem
    unfold dcFoundationColorCond at hmem
    rw [h] at hmem
    simp only [hk] at hmem
    simp at hmem
  · intro newT h hk hmem
    rw [mem_dc_semanticAttachment] at hmem
    unfold dcSemanticAttachmentCond at hmem
    rw [h] at hmem
    simp only [hk] at hmem
    simp at hmem
  · intro newT h hk hmem
    rw [mem_dc_foundationRadius] at hmem
    unfold dcFoundationRadiusCond at hmem
    rw [h] at hmem
    simp only [hk] at hmem
    simp at hmem
  · intro newT h hk hmem
    rw [mem_dc_foundationSpacing] at hmem
    unfold dcFoundationSpacingCond at hmem
    rw [h] at hmem
    simp only [hk] at hmem
    simp at hmem
  · intro newT h hall hmem
    rw [mem_dc_typographyFoundation] at hmem
    unfold dcTypographyFoundationCond at hmem
    rw [h] at hmem
    simp only [] at hmem
    cases hb : (newT.getT "typography").bind (fun t => t.getT "foundation") with
    | none => rw [hb] at hmem; simp at hmem
    | some fnd =>
        rw [hb] at hmem
        have hg : jsGuard2 newT "typography" "foundation" = fnd := by
          rw [jsGuard2, hb]
          rfl
        have h1 := hall "fontFamily" (by simp)
        have h2 := hall "fontSize" (by simp)
        have h3 := hall "fontWeight" (by simp)
        have h4 := hall "lineHeight" (by simp)
        have h5 := hall "letterSpacing" (by simp)
        rw [hg] at h1 h2 h3 h4 h5
        simp [List.any_cons, List.any_nil, h1, h2, h3, h4, h5] at hmem
  · intro newT h hall hmem
    rw [mem_dc_typographySemantic] at hmem
    unfold dcTypographySemanticCond at hmem
    rw [h] at hmem
    simp only [] at hmem
    cases hb : (newT.getT "typography").bind (fun t => t.getT "semantic") with
    | none => rw [hb] at hmem; simp at hmem
    | some sem =>
        rw [hb] at hmem
        have hg : jsGuard2 newT "typography" "semantic" = sem := by
          rw [jsGuard2, hb]
          rfl
        have h1 := hall "heading" (by simp)
        have h2 := hall "body" (by simp)
        rw [hg] at h1 h2
        simp [List.any_cons, List.any_nil, h1, h2] at hmem
  · intro t ht newT h hk
    rw [mem_dc_theme nm cm t ht]
    unfold detectThemeBranchCond
    simp only []
    rw [h]
    simp only []
    rw [unionKeys_any_iff]
    have hget : ∀ k, (jsGuard3 newT "color" "theme" (jsToLower t)).get k = none :=
      fun k => Json.get_eq_none_of_keys_nil hk k
    constructor
    · rintro ⟨k, hk2, hdiff⟩
      have hmem : k ∈ (jsGuard3 ((mapGet cm (themeFile t)).getD .null)
          "color" "theme" (jsToLower t)).keys := by
        rcases hk2 with hl | hr
        · rw [hk] at hl
          cases hl
        · exact hr
      refine ⟨k, hmem, ?_⟩
      have hnone : dollarValue (jsGuard3 newT "color" "theme" (jsToLower t)) k = none := by
        rw [dollarValue, Json.getT, hget k]
        rfl
      rw [hnone, jsStrictNeq_none_left] at hdiff
      intro hcontr
      rw [hcontr] at hdiff
      cases hdiff
    · rintro ⟨k, hmem, hval⟩
      refine ⟨k, Or.inr hmem, ?_⟩
      have hnone : dollarValue (jsGuard3 newT "color" "theme" (jsToLower t)) k = none := by
        rw [dollarValue, Json.getT, hget k]
        rfl
      rw [hnone, jsStrictNeq_none_left]
      cases hv : dollarValue (jsGuard3 ((mapGet cm (themeFile t)).getD .null)
          "color" "theme" (jsToLower t)) k with
      | none => exact absurd hv hval
      | some v => rfl

theorem C4_empty_tree_guards_witness :
    TOKEN_FILES.THEME_DENIM ∈ (detectChanges c4Nm c4Cm).changedFiles :=
  ((C4_empty_tree_guards c4Nm c4Cm).2.2.2.2.2.2 "Denim" (by decide)
    (.obj [("color", .obj [("theme", .obj [("denim", .obj [])])])])
    (by decide) (by decide)).mpr
    ⟨"sidebar-bg", by decide, by decide⟩

theorem charListLe_total : ∀ a b : List Char, charListLe a b = true ∨ charListLe b a = true
  | [], _ => Or.inl rfl
  | _ :: _, [] => Or.inr rfl
  | x :: xs, y :: ys => by
      unfold charListLe
      by_cases h1 : x.val.toNat < y.val.toNat
      · left
        simp [h1]
      · by_cases h2 : y.val.toNat < x.val.toNat
        · right
          simp [h2]
        · rcases charListLe_total xs ys with h | h
          · left
            simp [h1, h2, h]
          · right
            simp [h1, h2, h]

theorem charListLe_trans : ∀ a b c : List Char,
    charListLe a b = true → charListLe b c = true → charListLe a c = true
  | [], _, _, _, _ => rfl
  | _ :: _, [], _, hab, _ => by simp [charListLe] at hab
  | _ :: _, _ :: _, [], _, hbc => by simp [charListLe] at hbc
  | x :: xs, y :: ys, z :: zs, hab, hbc => by
      unfold charListLe at hab hbc ⊢
      by_cases h1 : x.val.toNat < y.val.toNat <;> by_cases h2 : y.val.toNat < z.val.toNat
      · have hxz : x.val.toNat < z.val.toNat := h1.trans h2
        rw [if_pos hxz]
      · have hzy : ¬z.val.toNat < y.val.toNat := by
          intro hc
          rw [if_neg h2, if_pos hc] at hbc
          cases hbc
        have hyz : y.val.toNat = z.val.toNat :=
          Nat.le_antisymm (Nat.not_lt.mp hzy) (Nat.not_lt.mp h2)
        have hxz : x.val.toNat < z.val.toNat := hyz ▸ h1
        rw [if_pos hxz]
      · have hyx : ¬y.val.toNat < x.val.toNat := by
          intro hc
          rw [if_neg h1, if_pos hc] at hab
          cases hab
        have hxy : x.val.toNat = y.val.toNat :=
          Nat.le_antisymm (Nat.not_lt.mp hyx) (Nat.not_lt.mp h1)
        have hxz : x.val.toNat < z.val.toNat := hxy ▸ h2
        rw [if_pos hxz]
      · have hyx : ¬y.val.toNat < x.val.toNat := by
          intro hc
          rw [if_neg h1, if_pos hc] at hab
          cases hab
        have hzy : ¬z.val.toNat < y.val.toNat := by
          intro hc
          rw [if_neg h2, if_pos hc] at hbc
          cases hbc
        have hxy : x.val.toNat = y.val.toNat :=
          Nat.le_antisymm (Nat.not_lt.mp hyx) (Nat.not_lt.mp h1)
        have hyz : y.val.toNat = z.val.toNat :=
          Nat.le_antisymm (Nat.not_lt.mp hzy) (Nat.not_lt.mp h2)
        have hab2 : charListLe xs ys = true := by
          rw [if_neg h1, if_neg hyx] at hab
          exact hab
        have hbc2 : charListLe ys zs = true := by
          rw [if_neg h2, if_neg hzy] at hbc
          exact hbc
        have hxz1 : ¬x.val.toNat < z.val.toNat := by
          rw [hxy, hyz]
          exact Nat.lt_irrefl _
        have hxz2 : ¬z.val.toNat < x.val.toNat := by
          rw [hxy, hyz]
          exact Nat.lt_irrefl _
        rw [if_neg hxz1, if_neg hxz2]
        exact charListLe_trans xs ys zs hab2 hbc2

theorem strLe_total (a b : String) : strLe a b = true ∨ strLe b a = true :=
  charListLe_total a.data b.data

theorem strLe_trans {a b c : String} (hab : strLe a b = true) (hbc : strLe b c = true) :
    strLe a c = true :=
  charListLe_trans a.data b.data c.data hab hbc

theorem jsInsert_perm (x : String) (l : List String) : List.Perm (jsInsert x l) (x :: l) := by
  induction l with
  | nil => exact List.Perm.refl _
  | cons y ys ih =>
      unfold jsInsert
      by_cases h : strLe x y
      · rw [if_pos h]
      · rw [if_neg h]
        exact (ih.cons y).trans (List.Perm.swap x y ys)

theorem jsSort_perm (l : List String) : List.Perm (jsSort l) l := by
  induction l with
  | nil => exact List.Perm.refl _
  | cons x xs ih => exact (jsInsert_perm x (jsSort xs)).trans (ih.cons x)

theorem jsInsert_sorted (x : String) (l : List String)
    (h : l.Sorted (fun a b => strLe a b = true)) :
    (jsInsert x l).Sorted (fun a b => strLe a b = true) := by
  induction l with
  | nil => simp [jsInsert]
  | cons y ys ih =>
      unfold jsInsert
      rcases List.sorted_cons.mp h with ⟨hy, hys⟩
      by_cases hxy : strLe x y
      · rw [if_pos hxy]
        refine List.sorted_cons.mpr ⟨?_, h⟩
        intro b hb
        rcases List.mem_cons.mp hb with rfl | hb2
        · exact hxy
        · exact strLe_trans hxy (hy b hb2)
      · rw [if_neg hxy]
        have hyx : strLe y x = true := by
          rcases strLe_total x y with hc | hc
          · exact absurd hc hxy
          · exact hc
        refine List.sorted_cons.mpr ⟨?_, ih hys⟩
        intro b hb
        have hb2 : b ∈ x :: ys := (jsInsert_perm x ys).mem_iff.mp hb
        rcases List.mem_cons.mp hb2 with rfl | hb3
        · exact hyx
        · exact hy b hb3

theorem jsSort_sorted (l : List String) :
    (jsSort l).Sorted (fun a b => strLe a b = true) := by
  induction l with
  | nil => simp [jsSort]
  | cons x xs ih => exact jsInsert_sorted x (jsSort xs) ih

theorem Json.get_obj_cons_of_ne {p : String × Json} {rest : List (String × Json)}
    {k : String} (h : (p.1 == k) = false) :
    (Json.obj (p :: rest)).get k = (Json.obj rest).get k := by
  simp only [Json.get, List.find?_cons]
  rw [h]

theorem Json.get_obj_cons_self {k : String} {v : Json} {rest : List (String × Json)} :
    (Json.obj ((k, v) :: rest)).get k = some v := by
  simp only [Json.get, List.find?_cons]
  rw [show (((k, v) : String × Json).1 == k) = true by simp]
  rfl

theorem Json.get_isSome_of_mem_keys : ∀ {j : Json} {k : String}, k ∈ j.keys →
    (j.get k).isSome = true := by
  intro j k h
  cases j with
  | obj kvs =>
      induction kvs with
      | nil => cases h
      | cons p rest ih =>
          by_cases hp : p.1 = k
          · obtain ⟨k2, v⟩ := p
            cases hp
            rw [Json.get_obj_cons_self]
            rfl
          · have h2 : k ∈ p.1 :: (Json.obj rest).keys := h
            have hk : k ∈ (Json.obj rest).keys := by
              rcases List.mem_cons.mp h2 with he | hm
              · exact absurd he.symm hp
              · exact hm
            rw [Json.get_obj_cons_of_ne (by simp [hp])]
            exact ih hk
  | str s => cases h
  | num q => cases h
  | bool b => cases h
  | null => cases h
  | arr xs => cases h

theorem keys_obj_filterMap_assoc (ks : List String) (src : Json)
    (hsub : ∀ k ∈ ks, (src.get k).isSome = true) :
    (Json.obj (ks.filterMap (fun k2 => (src.get k2).map (fun v => (k2, v))))).keys = ks := by
  induction ks with
  | nil => rfl
  | cons a rest ih =>
      obtain ⟨va, hva⟩ := Option.isSome_iff_exists.mp (hsub a (by simp))
      have hrest := ih (fun k hk => hsub k (by simp [hk]))
      simp only [List.filterMap_cons, hva, Option.map_some]
      simpa [Json.keys] using hrest

theorem get_obj_filterMap_assoc (ks : List String) (src : Json) (hnd : ks.Nodup)
    (hsub : ∀ k ∈ ks, (src.get k).isSome = true) (k : String) (hk : k ∈ ks) :
    (Json.obj (ks.filterMap (fun k2 => (src.get k2).map (fun v => (k2, v))))).get k =
      src.get k := by
  induction ks with
  | nil => cases hk
  | cons a rest ih =>
      obtain ⟨va, hva⟩ := Option.isSome_iff_exists.mp (hsub a (by simp))
      by_cases hak : a = k
      · subst hak
        have hcons : List.filterMap (fun k2 => (src.get k2).map (fun v => (k2, v))) (a :: rest) =
            (a, va) :: List.filterMap (fun k2 => (src.get k2).map (fun v => (k2, v))) rest := by
          rw [List.filterMap_cons]
          simp [hva]
        rw [hcons, Json.get_obj_cons_self]
        exact hva.symm
      · have hkrest : k ∈ rest := by
          rcases List.mem_cons.mp hk with he | hm
          · exact absurd he.symm hak
          · exact hm
        have hrec := ih hnd.of_cons (fun k2 hk2 => hsub k2 (by simp [hk2])) hkrest
        have hcons : List.filterMap (fun k2 => (src.get k2).map (fun v => (k2, v))) (a :: rest) =
            (a, va) :: List.filterMap (fun k2 => (src.get k2).map (fun v => (k2, v))) rest := by
          rw [List.filterMap_cons]
          simp [hva]
        rw [hcons, Json.get_obj_cons_of_ne (by simp [hak])]
        exact hrec

theorem sortThemeTokens_raw3 (kvs : List (String × Json)) (currentTokens : Json)
    (themeName : String) :
    raw3 (sortThemeTokens (Json.obj kvs) currentTokens themeName) "color" "theme"
        (jsToLower themeName) =
      Json.obj ((themeSortedKeys (Json.obj kvs) currentTokens themeName).filterMap
        (fun k => ((raw3 (Json.obj kvs) "color" "theme" (jsToLower themeName)).get k).map
          (fun v => (k, v)))) := by
  unfold sortThemeTokens
  simp only []
  unfold raw3 raw2
  rw [Json.get_set kvs "color" _ "color", if_pos rfl]
  simp only [Option.getD_some]
  rw [Json.get_obj_cons_self]
  simp only [Option.getD_some]
  rw [Json.get_obj_cons_self]
  simp only [Option.getD_some]
  rfl

theorem Json.mem_keys_of_contains {l : List String} {k : String}
    (h : l.contains k = true) : k ∈ l := by
  simpa using h

/-- C9: for every newly built theme tree and remote theme tree,
`sortThemeTokens` produces a tree whose key sequence is exactly the remote
tree's keys in their existing remote order restricted to keys also present
in the new tree, followed by the keys present only in the new tree in
alphabetical (code-unit) order — characterized as a sorted permutation of
those new-only keys — and every retained key maps to its newly extracted
token value.  (Key sets of JS objects are duplicate-free.) -/
theorem C9_sortThemeTokens (newTokens currentTokens : Json) (themeName : String)
    (hndNew : (raw3 newTokens "color" "theme" (jsToLower themeName)).keys.Nodup)
    (hndCur : (jsGuard3 currentTokens "color" "theme" (jsToLower themeName)).keys.Nodup) :
    ((raw3 (sortThemeTokens newTokens currentTokens themeName) "color" "theme"
        (jsToLower themeName)).keys =
      (jsGuard3 currentTokens "color" "theme" (jsToLower themeName)).keys.filter
        (fun k => (raw3 newTokens "color" "theme" (jsToLower themeName)).keys.contains k) ++
      jsSort ((raw3 newTokens "color" "theme" (jsToLower themeName)).keys.filter
        (fun k => !(jsGuard3 currentTokens "color" "theme" (jsToLower themeName)).keys.contains k))) ∧
    List.Sorted (fun a b => strLe a b = true)
      (jsSort ((raw3 newTokens "color" "theme" (jsToLower themeName)).keys.filter
        (fun k => !(jsGuard3 currentTokens "color" "theme" (jsToLower themeName)).keys.contains k))) ∧
    List.Perm
      (jsSort ((raw3 newTokens "color" "theme" (jsToLower themeName)).keys.filter
        (fun k => !(jsGuard3 currentTokens "color" "theme" (jsToLower themeName)).keys.contains k)))
      ((raw3 newTokens "color" "theme" (jsToLower themeName)).keys.filter
        (fun k => !(jsGuard3 currentTokens "color" "theme" (jsToLower themeName)).keys.contains k)) ∧
    (∀ k ∈ (raw3 (sortThemeTokens newTokens currentTokens themeName) "color" "theme"
        (jsToLower themeName)).keys,
      (raw3 (sortThemeTokens newTokens currentTokens themeName) "color" "theme"
          (jsToLower themeName)).get k =
        (raw3 newTokens "color" "theme" (jsToLower themeName)).get k) := by
  refine ⟨?_, jsSort_sorted _, jsSort_perm _, ?_⟩ <;>
  · cases newTokens with
    | obj kvs =>
        have hsub : ∀ k ∈ themeSortedKeys (Json.obj kvs) currentTokens themeName,
            (((raw3 (Json.obj kvs) "color" "theme" (jsToLower themeName))).get k).isSome = true := by
          intro k hk
          rcases List.mem_append.mp hk with hl | hr
          · rcases List.mem_filter.mp hl with ⟨_, hc⟩
            exact Json.get_isSome_of_mem_keys (Json.mem_keys_of_contains hc)
          · have hmem := (jsSort_perm _).mem_iff.mp hr
            rcases List.mem_filter.mp hmem with ⟨hm, _⟩
            exact Json.get_isSome_of_mem_keys hm
        have hnd : (themeSortedKeys (Json.obj kvs) currentTokens themeName).Nodup := by
          refine List.Nodup.append (hndCur.filter _) ?_ ?_
          · exact (jsSort_perm _).nodup_iff.mpr (hndNew.filter _)
          · intro a ha hb
            rcases List.mem_filter.mp ha with ⟨hac, _⟩
            have hb2 := (jsSort_perm _).mem_iff.mp hb
            rcases List.mem_filter.mp hb2 with ⟨_, hnc⟩
            rw [Bool.not_eq_eq_eq_not, Bool.not_true] at hnc
            exact (by simpa using hnc : a ∉ _) (by simpa using hac)
        first
        | · rw [sortThemeTokens_raw3]
            exact keys_obj_filterMap_assoc _ _ hsub
        | · intro k hk
            rw [sortThemeTokens_raw3] at hk ⊢
            rw [keys_obj_filterMap_assoc _ _ hsub] at hk
            exact get_obj_filterMap_assoc _ _ hnd hsub k hk
    | str s => simp [sortThemeTokens, Json.set, raw3, raw2, Json.get, Json.keys, jsSort]
    | num q => simp [sortThemeTokens, Json.set, raw3, raw2, Json.get, Json.keys, jsSort]
    | bool b => simp [sortThemeTokens, Json.set, raw3, raw2, Json.get, Json.keys, jsSort]
    | null => simp [sortThemeTokens, Json.set, raw3, raw2, Json.get, Json.keys, jsSort]
    | arr xs => simp [sortThemeTokens, Json.set, raw3, raw2, Json.get, Json.keys, jsSort]

theorem C9_sortThemeTokens_witness :
    (raw3 (sortThemeTokens c9New c9Cur "Denim") "color" "theme"
        (jsToLower "Denim")).keys =
      (jsGuard3 c9Cur "color" "theme" (jsToLower "Denim")).keys.filter
        (fun k => (raw3 c9New "color" "theme" (jsToLower "Denim")).keys.contains k) ++
      jsSort ((raw3 c9New "color" "theme" (jsToLower "Denim")).keys.filter
        (fun k => !(jsGuard3 c9Cur "color" "theme" (jsToLower "Denim")).keys.contains k)) :=
  (C9_sortThemeTokens c9New c9Cur "Denim" (by decide) (by decide)).1

theorem hasFoundationColorChanges_iff (n c : Json) :
    hasFoundationColorChanges n c = true ↔ specDiffFoundationColor n c := by
  unfold hasFoundationColorChanges specDiffFoundationColor
  simp only [unionKeys_any_iff]

theorem hasSemanticAttachmentChanges_iff (n c : Json) :
    hasSemanticAttachmentChanges n c = true ↔ specDiffAttachment n c := by
  unfold hasSemanticAttachmentChanges specDiffAttachment
  simp only [unionKeys_any_iff]

theorem hasFoundationRadiusChanges_iff (n c : Json) :
    hasFoundationRadiusChanges n c = true ↔ specDiffRadius n c := by
  unfold hasFoundationRadiusChanges specDiffRadius
  simp only [unionKeys_any_iff]

theorem hasTypographyChanges_iff (n c : Json) :
    hasTypographyChanges n c = true ↔ specDiffTypography n c := by
  unfold hasTypographyChanges specDiffTypography
  simp only [List.any_eq_true, mem_unionKeys]

theorem hasSemanticTypographyChanges_iff (n c : Json) :
    hasSemanticTypographyChanges n c = true ↔ specDiffSemanticTypo n c := by
  unfold hasSemanticTypographyChanges specDiffSemanticTypo
  simp only [List.any_eq_true, mem_unionKeys, decide_eq_true_eq]

/-- C1 counterexample: the semantic-typography file is present in the new
map with non-empty content, the `code.100` leaf is in the union of the two
trees' leaf-key sets for the `code` category and differs structurally
(present in the new tree, absent in the current one), yet the file is not
reported as changed — `hasSemanticTypographyChanges` only ever inspects
the `heading` and `body` categories. -/
theorem C1_counterexample :
    mapGetT c1Nm TOKEN_FILES.TYPOGRAPHY_SEMANTIC = some c1NewT ∧
    0 < (raw2 c1NewT "typography" "semantic").keys.length ∧
    "100" ∈ ((jsGuard2 c1NewT "typography" "semantic").getOr "code").keys ∧
    ((jsGuard2 c1NewT "typography" "semantic").getOr "code").get "100" ≠
      ((jsGuard2 c1CurT "typography" "semantic").getOr "code").get "100" ∧
    TOKEN_FILES.TYPOGRAPHY_SEMANTIC ∉ (detectChanges c1Nm c1Cm).changedFiles := by
  refine ⟨by decide, by decide, by decide, by decide, by decide⟩

/-- C1 (amended): for every file identifier present (truthy) in the new
map whose freshly extracted content passes that branch's non-emptiness
gate, `detectChanges` includes the file in `changedFiles` if and only if
some leaf in the union of the two trees' leaf-key sets differs — literal
leaves by strict inequality (a leaf missing on one side counts as a
difference), composite leaves (font-family arrays, semantic typography
composites) by whole-value structural inequality — EXCEPT that for the
semantic-typography file only the `heading` and `body` categories
participate, in the gate and in the comparison alike; `code`-category
leaves are ignored.  Theme files have no non-emptiness gate, so for them
the equivalence holds under (and without needing) the stated gate. -/
theorem C1_detectChanges_per_file (nm cm : JsonMap) :
    (∀ newT, mapGetT nm TOKEN_FILES.FOUNDATION_COLOR = some newT →
      0 < (raw2 newT "color" "foundation").keys.length →
      (TOKEN_FILES.FOUNDATION_COLOR ∈ (detectChanges nm cm).changedFiles ↔
        specDiffFoundationColor newT
          ((mapGet cm TOKEN_FILES.FOUNDATION_COLOR).getD .null))) ∧
    (∀ newT, mapGetT nm TOKEN_FILES.SEMANTIC_ATTACHMENT = some newT →
      0 < (((raw2 newT "color" "semantic").get "attachment").getD .null).keys.length →
      (TOKEN_FILES.SEMANTIC_ATTACHMENT ∈ (detectChanges nm cm).changedFiles ↔
        specDiffAttachment newT
          ((mapGet cm TOKEN_FILES.SEMANTIC_ATTACHMENT).getD .null))) ∧
    (∀ newT, mapGetT nm TOKEN_FILES.FOUNDATION_RADIUS = some newT →
      0 < (raw2 newT "radius" "foundation").keys.length →
      (TOKEN_FILES.FOUNDATION_RADIUS ∈ (detectChanges nm cm).changedFiles ↔
        specDiffRadius newT
          ((mapGet cm TOKEN_FILES.FOUNDATION_RADIUS).getD .null))) ∧
    (∀ newT, mapGetT nm TOKEN_FILES.FOUNDATION_SPACING = some newT →
      0 < (raw2 newT "spacing" "foundation").keys.length →
      (TOKEN_FILES.FOUNDATION_SPACING ∈ (detectChanges nm cm).changedFiles ↔
        specDiffSpacing newT
          ((mapGet cm TOKEN_FILES.FOUNDATION_SPACING).getD .null))) ∧
    (∀ newT, mapGetT nm TOKEN_FILES.TYPOGRAPHY_FOUNDATION = some newT →
      (["fontFamily", "fontSize", "fontWeight", "lineHeight", "letterSpacing"].any
        (fun p => decide (0 < ((jsGuard2 newT "typography" "foundation").getOr p).keys.length)))
        = true →
      (TOKEN_FILES.TYPOGRAPHY_FOUNDATION ∈ (detectChanges nm cm).changedFiles ↔
        specDiffTypography newT
          ((mapGet cm TOKEN_FILES.TYPOGRAPHY_FOUNDATION).getD .null))) ∧
    (∀ newT, mapGetT nm TOKEN_FILES.TYPOGRAPHY_SEMANTIC = some newT →
      (["heading", "body"].any
        (fun p => decide (0 < ((jsGuard2 newT "typography" "semantic").getOr p).keys.length)))
        = true →
      (TOKEN_FILES.TYPOGRAPHY_SEMANTIC ∈ (detectChanges nm cm).changedFiles ↔
        specDiffSemanticTypo newT
          ((mapGet cm TOKEN_FILES.TYPOGRAPHY_SEMANTIC).getD .null))) ∧
    (∀ t ∈ THEME_NAMES, ∀ newT, mapGetT nm (themeFile t) = some newT →
      0 < (jsGuard3 newT "color" "theme" (jsToLower t)).keys.length →
      (themeFile t ∈ (detectChanges nm cm).changedFiles ↔
        specDiffTheme newT ((mapGet cm (themeFile t)).getD .null) (jsToLower t))) := by
  refine ⟨?_, ?_, ?_, ?_, ?_, ?_, ?_⟩
  · intro newT h hg
    rw [mem_dc_foundationColor]
    unfold dcFoundationColorCond
    rw [h]
    simp only []
    rw [Bool.and_eq_true, decide_eq_true_eq, hasFoundationColorChanges_iff]
    exact and_iff_right hg
  · intro newT h hg
    rw [mem_dc_semanticAttachment]
    unfold dcSemanticAttachmentCond
    rw [h]
    simp only []
    rw [Bool.and_eq_true, decide_eq_true_eq, hasSemanticAttachmentChanges_iff]
    exact and_iff_right hg
  · intro newT h hg
    rw [mem_dc_foundationRadius]
    unfold dcFoundationRadiusCond
    rw [h]
    simp only []
    rw [Bool.and_eq_true, decide_eq_true_eq, hasFoundationRadiusChanges_iff]
    exact and_iff_right hg
  · intro newT h hg
    rw [mem_dc_foundationSpacing]
    unfold dcFoundationSpacingCond
    rw [h]
    simp only []
    rw [Bool.and_eq_true, decide_eq_true_eq, unionKeys_any_iff]
    unfold specDiffSpacing
    exact and_iff_right hg
  · intro newT h hg
    rw [mem_dc_typographyFoundation]
    unfold dcTypographyFoundationCond
    rw [h]
    simp only []
    cases hb : (newT.getT "typography").bind (fun t => t.getT "foundation") with
    | none =>
        have hjs : jsGuard2 newT "typography" "foundation" = Json.obj [] := by
          rw [jsGuard2, hb]
          rfl
        rw [hjs] at hg
        exact absurd hg (by decide)
    | some fnd =>
        have hjs : jsGuard2 newT "typography" "foundation" = fnd := by
          rw [jsGuard2, hb]
          rfl
        simp only []
        rw [hjs] at hg
        rw [Bool.and_eq_true, hasTypographyChanges_iff]
        exact and_iff_right hg
  · intro newT h hg
    rw [mem_dc_typographySemantic]
    unfold dcTypographySemanticCond
    rw [h]
    simp only []
    cases hb : (newT.getT "typography").bind (fun t => t.getT "semantic") with
    | none =>
        have hjs : jsGuard2 newT "typography" "semantic" = Json.obj [] := by
          rw [jsGuard2, hb]
          rfl
        rw [hjs] at hg
        exact absurd hg (by decide)
    | some sem =>
        have hjs : jsGuard2 newT "typography" "semantic" = sem := by
          rw [jsGuard2, hb]
          rfl
        simp only []
        rw [hjs] at hg
        rw [Bool.and_eq_true, hasSemanticTypographyChanges_iff]
        exact and_iff_right hg
  · intro t ht newT h _
    rw [mem_dc_theme nm cm t ht]
    unfold detectThemeBranchCond
    simp only []
    rw [h]
    simp only []
    rw [unionKeys_any_iff]
    unfold specDiffTheme
    exact Iff.rfl

/-- The semantic-typography conjunct of the per-file characterization at a
concrete input: a `heading.100` token present only in the new tree makes
the file change-detected. -/
theorem C1_detectChanges_per_file_witness :
    TOKEN_FILES.TYPOGRAPHY_SEMANTIC ∈ (detectChanges c1wNm c1wCm).changedFiles :=
  ((C1_detectChanges_per_file c1wNm c1wCm).2.2.2.2.2.1 c1wNewT (by decide)
      (by decide)).mpr
    ⟨"heading", by decide, "100", Or.inl (by decide), by decide⟩
